import Mathlib

/-!
Verification development for the cow-planmate/Ai travel-planning backend.

The file is a shallow embedding, in Lean 4, of the core logic of the
repository:

* `app/services/search_service.py` — time parsing/formatting, the free-slot
  search `find_non_overlapping_time`, and the single/multi place-block
  search helpers used by the tool-calling chat path;
* `app/services/auto_schedule.py` — the deterministic auto-scheduler
  (`create_auto_schedule`, `create_daily_schedule`, `has_time_conflict`,
  `get_existing_blocks_for_date`);
* `app/services/chatbot_service.py` — the action normalizer
  (`_normalize_actions`) and the chat request handler;
* `app/services/chatbot_gemini_handler.py` — the structured-output chat
  handler with the `gemini_model is None` guard.

Modelling conventions:

* External collaborators (Google Places text search, geocoding, the
  generative model) are pure oracle parameters: a places oracle maps
  `(query, location-bias, result-index)` to `Option Place` (`none` = no
  result / API failure), matching `call_google_places`'s observable
  contract.  The HTTP radius argument is a constant in the source and is
  dropped.
* Python exceptions are modelled with `Except String`; a function that
  cannot raise returns a plain value.
* Machine numbers: wall-clock times are seconds-since-midnight as `Nat`;
  `datetime` arithmetic past midnight keeps an unbounded `Nat` and takes
  `% 86400` exactly where CPython's `.time()` does.  Float payloads
  (ratings, coordinates) are never computed with, only copied, and are
  modelled as uninterpreted `Int` scalars.
* `chatbot_service.py` in the repository contains unresolved git merge
  conflict markers interleaving two revisions of
  `handle_java_chatbot_request` (a tool-calling revision and a revision
  built around `_normalize_actions`).  The embedding follows the combined
  pipeline both revisions share and the specification describes: the
  tool-call loop first, then the normalizer-based free-text path.
* `robust_json_parse` is referenced by `_normalize_actions` but defined
  nowhere under the repository sources; it is taken as an arbitrary
  function parameter `rjp : String → Json`, so every theorem quantifying
  over `rjp` holds for any actual implementation.  The strict JSON parse
  of the whole payload (`json.loads`) is likewise an arbitrary parameter
  `pj : String → Option Json` (`none` = parse failure / non-mapping inputs
  are handled explicitly).
-/

namespace PlanmateAi

/-! ### Wall-clock time parsing and formatting (`search_service._parse_time`,
`_format_time`, and the `"%H:%M:%S"` uses of `datetime.strptime`).

Times are seconds since midnight.  `strftime("%H:%M:%S")` always emits
zero-padded two-digit components, which is what `formatTime` produces.
`strptime` is modelled on the canonical zero-padded forms (the only forms
the repository itself produces or that the claims exercise). -/

def digitChar : Nat → Char
  | 0 => '0'
  | 1 => '1'
  | 2 => '2'
  | 3 => '3'
  | 4 => '4'
  | 5 => '5'
  | 6 => '6'
  | 7 => '7'
  | 8 => '8'
  | 9 => '9'
  | _ => '*'

def digitVal (c : Char) : Option Nat :=
  if c = '0' then some 0
  else if c = '1' then some 1
  else if c = '2' then some 2
  else if c = '3' then some 3
  else if c = '4' then some 4
  else if c = '5' then some 5
  else if c = '6' then some 6
  else if c = '7' then some 7
  else if c = '8' then some 8
  else if c = '9' then some 9
  else none

/-- `_format_time(t)` for a `datetime` whose absolute second count is `x`:
CPython first truncates to the time-of-day (`.time()`, i.e. `% 86400`),
then renders `"%H:%M:%S"`. -/
def formatTime (x : Nat) : String :=
  let t := x % 86400
  let h := t / 3600
  let m := t % 3600 / 60
  let s := t % 60
  String.mk [digitChar (h / 10), digitChar (h % 10), ':',
             digitChar (m / 10), digitChar (m % 10), ':',
             digitChar (s / 10), digitChar (s % 10)]

/-- `datetime.strptime(s, "%H:%M:%S").time()` on canonical zero-padded input. -/
def parseHMS (s : String) : Option Nat :=
  match s.data with
  | [h1, h2, ':', m1, m2, ':', s1, s2] =>
    match digitVal h1, digitVal h2, digitVal m1, digitVal m2, digitVal s1, digitVal s2 with
    | some a, some b, some c, some d, some e, some f =>
      let h := 10 * a + b
      let m := 10 * c + d
      let sec := 10 * e + f
      if h < 24 ∧ m < 60 ∧ sec < 60 then some (3600 * h + 60 * m + sec) else none
    | _, _, _, _, _, _ => none
  | _ => none

/-- `datetime.strptime(s, "%H:%M").time()` on canonical zero-padded input. -/
def parseHM (s : String) : Option Nat :=
  match s.data with
  | [h1, h2, ':', m1, m2] =>
    match digitVal h1, digitVal h2, digitVal m1, digitVal m2 with
    | some a, some b, some c, some d =>
      let h := 10 * a + b
      let m := 10 * c + d
      if h < 24 ∧ m < 60 then some (3600 * h + 60 * m) else none
    | _, _, _, _ => none
  | _ => none

/-- A JSON-borne wall-clock time value as `_parse_time` receives it:
a string, a Jackson `LocalTime` array, or `None`/missing. -/
inductive JTime where
  | str (s : String)
  | arr (l : List Nat)
  | null
deriving DecidableEq

/-- Truthiness test `not t` used by `_parse_time` and `has_time_conflict`:
`None`, `""` and `[]` are falsy. -/
def jtimeFalsy : JTime → Bool
  | JTime.null => true
  | JTime.str s => s = ""
  | JTime.arr l => l.isEmpty

/-- `search_service._parse_time`: accepts `"HH:MM:SS"`, `"HH:MM"`,
`[H, M]`, `[H, M, S]` or `[H, M, S, ns]` (nanoseconds ignored); raises a
descriptive `ValueError` otherwise.  `time(...)` range validation
(`0 ≤ H < 24` etc.) is included. -/
def parse_time : JTime → Except String Nat
  | JTime.null => .error "Time value is empty"
  | JTime.str s =>
    if s = "" then .error "Time value is empty"
    else
      match parseHMS s with
      | some v => .ok v
      | none =>
        match parseHM s with
        | some v => .ok v
        | none => .error ("Unable to parse time value: " ++ s)
  | JTime.arr l =>
    match l with
    | [] => .error "Time value is empty"
    | [_] => .error "Invalid time array format"
    | [h, m] =>
      if h < 24 ∧ m < 60 then .ok (3600 * h + 60 * m)
      else .error "time component out of range"
    | h :: m :: s :: _ =>
      if h < 24 ∧ m < 60 ∧ s < 60 then .ok (3600 * h + 60 * m + s)
      else .error "time component out of range"

/-- `datetime.strptime(s, "%H:%M:%S").time()` where only that one format is
attempted (as in `has_time_conflict` and the lodging lookup). -/
def strictHMS (s : String) : Except String Nat :=
  match parseHMS s with
  | some v => .ok v
  | none => .error ("time data does not match format: " ++ s)

/-! ### Calendar dates (`datetime.strptime(_, "%Y-%m-%d")`, `timedelta(days=_)`,
`strftime("%Y-%m-%d")`). -/

structure PDate where
  year : Nat
  month : Nat
  day : Nat
deriving DecidableEq

def isLeap (y : Nat) : Bool :=
  (y % 4 = 0 && y % 100 ≠ 0) || y % 400 = 0

def daysInMonth (y m : Nat) : Nat :=
  if m = 2 then (if isLeap y then 29 else 28)
  else if m = 4 ∨ m = 6 ∨ m = 9 ∨ m = 11 then 30
  else 31

def nextDay (d : PDate) : PDate :=
  if d.day < daysInMonth d.year d.month then ⟨d.year, d.month, d.day + 1⟩
  else if d.month < 12 then ⟨d.year, d.month + 1, 1⟩
  else ⟨d.year + 1, 1, 1⟩

def addDays (d : PDate) : Nat → PDate
  | 0 => d
  | n + 1 => nextDay (addDays d n)

def fmtDateNums (y m d : Nat) : String :=
  String.mk [digitChar (y / 1000 % 10), digitChar (y / 100 % 10),
             digitChar (y / 10 % 10), digitChar (y % 10), '-',
             digitChar (m / 10), digitChar (m % 10), '-',
             digitChar (d / 10), digitChar (d % 10)]

/-- `date.strftime("%Y-%m-%d")` (years of at most four digits, as all the
repository's dates are). -/
def format_date (d : PDate) : String :=
  fmtDateNums d.year d.month d.day

/-- `datetime.strptime(s, "%Y-%m-%d").date()` on canonical input, with the
range validation `strptime` performs. -/
def parse_date (s : String) : Except String PDate :=
  match s.data with
  | [y1, y2, y3, y4, '-', m1, m2, '-', d1, d2] =>
    match digitVal y1, digitVal y2, digitVal y3, digitVal y4,
          digitVal m1, digitVal m2, digitVal d1, digitVal d2 with
    | some a, some b, some c, some d, some e, some f, some g, some h =>
      let y := 1000 * a + 100 * b + 10 * c + d
      let mo := 10 * e + f
      let da := 10 * g + h
      if 1 ≤ mo ∧ mo ≤ 12 ∧ 1 ≤ da ∧ da ≤ daysInMonth y mo then .ok ⟨y, mo, da⟩
      else .error ("time data does not match format: " ++ s)
    | _, _, _, _, _, _, _, _ => .error ("time data does not match format: " ++ s)
  | _ => .error ("time data does not match format: " ++ s)

/-! ### Data model: places, plan-context snapshots, created blocks. -/

/-- The dict returned by `call_google_places` (and reused for the lodging
data extracted from an existing block).  Coordinates can be `None` when
copied out of a plan-context block. -/
structure Place where
  placeName : String
  placeRating : Int
  placeAddress : String
  placeLink : String
  xLocation : Option Int
  yLocation : Option Int
  placeId : String
deriving DecidableEq

/-- A JSON-borne date inside a plan-context block: Jackson `[Y, M, D]`
array, ISO string, or anything else (skipped by the date filter). -/
inductive JDate where
  | str (s : String)
  | arr (l : List Nat)
  | null
deriving DecidableEq

/-- One entry of `planContext["TimeTablePlaceBlocks"]`. -/
structure CtxBlock where
  timeTableId : Int
  date : JDate
  blockStartTime : JTime
  blockEndTime : JTime
  placeName : String
  placeRating : Int
  placeAddress : String
  placeLink : String
  xLocation : Option Int
  yLocation : Option Int
  placeId : String
deriving DecidableEq

/-- One entry of `planContext["TimeTables"]`. -/
structure CtxTimeTable where
  timeTableId : Int
  date : String
deriving DecidableEq

/-- The caller-supplied plan snapshot (`planContext`). -/
structure PlanContext where
  TravelName : Option String
  TimeTables : List CtxTimeTable
  TimeTablePlaceBlocks : List CtxBlock
deriving DecidableEq

def empty_ctx : PlanContext := ⟨none, [], []⟩

/-- A created place-block dict, as built by `search_and_create_place_block`,
`search_multiple_place_blocks`, `create_place_block` and
`create_place_block_from_data`.  The auto-scheduler's blocks additionally
carry a `"date"` key (`date := some _`); the search blocks do not. -/
structure TPBlock where
  blockId : Int
  placeName : String
  placeTheme : String
  placeRating : Int
  placeAddress : String
  placeLink : String
  blockStartTime : String
  blockEndTime : String
  xLocation : Option Int
  yLocation : Option Int
  placeId : String
  placeCategoryId : Nat
  timeTableId : Int
  date : Option String
deriving DecidableEq

/-- The Google Places text-search collaborator:
`(query, location-bias, result_index) ↦` a place or `none`. -/
def PlacesOracle : Type := String → Option String → Nat → Option Place

/-- The geocoding lookup inside `get_destination_location`:
destination name `↦` `"lat,lng"` string or `none`. -/
def GeoOracle : Type := String → Option String

/-! ### `search_service.py` embedding. -/

def DAY_START : Nat := 32400
def DAY_END : Nat := 72000

def parse_blocks_from_plan (ctx : PlanContext) : List CtxBlock :=
  ctx.TimeTablePlaceBlocks

/-- `get_destination_location`: empty destination short-circuits; the HTTP
lookup is the geocoding oracle (any exception path yields `none`). -/
def get_destination_location (geo : GeoOracle) (destination : String) : Option String :=
  if destination = "" then none else geo destination

def fmtOptInt : Option Int → String
  | some n => toString n
  | none => "None"

/-- First block of the list carrying both coordinates, rendered as
`f"{y_loc},{x_loc}"` (Python renders a `None` coordinate as `"None"`,
but such blocks are skipped by the guard). -/
def first_loc : List CtxBlock → Option String
  | [] => none
  | b :: rest =>
    match b.yLocation, b.xLocation with
    | some y, some x => some (toString y ++ "," ++ toString x)
    | _, _ => first_loc rest

/-- `get_location_from_plan`. -/
def get_location_from_plan (geo : GeoOracle) (ctx : PlanContext) (timeTableId : Int) :
    Option String :=
  let blocks := parse_blocks_from_plan ctx
  let fromTravelName : Option String :=
    match ctx.TravelName with
    | some tn => if tn = "" then none else get_destination_location geo tn
    | none => none
  match blocks with
  | [] => fromTravelName
  | _ =>
    match first_loc (blocks.filter (fun b => decide (b.timeTableId = timeTableId))) with
    | some l => some l
    | none =>
      match first_loc blocks with
      | some l => some l
      | none => fromTravelName

/-- The interval-collection loop at the top of `find_non_overlapping_time`:
blocks of the given `timeTableId`, each parsed by `_parse_time` (which can
raise), in list order. -/
def used_intervals (blocks : List CtxBlock) (timeTableId : Int) :
    Except String (List (Nat × Nat)) :=
  match blocks with
  | [] => .ok []
  | b :: rest =>
    if b.timeTableId ≠ timeTableId then used_intervals rest timeTableId
    else
      match parse_time b.blockStartTime with
      | .error e => .error e
      | .ok s =>
        match parse_time b.blockEndTime with
        | .error e => .error e
        | .ok e =>
          match used_intervals rest timeTableId with
          | .error err => .error err
          | .ok tl => .ok ((s, e) :: tl)

/-- Stable insertion of an interval behind every interval with a
less-or-equal start (`used.sort(key=lambda x: x[0])` is a stable sort). -/
def insert_interval (p : Nat × Nat) : List (Nat × Nat) → List (Nat × Nat)
  | [] => [p]
  | q :: rest => if q.1 ≤ p.1 then q :: insert_interval p rest else p :: q :: rest

def sort_intervals : List (Nat × Nat) → List (Nat × Nat)
  | [] => []
  | p :: rest => insert_interval p (sort_intervals rest)

/-- The candidate-advancing scan of `find_non_overlapping_time`:
`inl c` is the early return (a slot starting at `c` fits before the next
used interval), `inr c` is the final candidate after all used intervals. -/
def scan_slot (dur : Nat) : List (Nat × Nat) → Nat → Sum Nat Nat
  | [], c => .inr c
  | (us, ue) :: rest, c =>
    if c + dur ≤ us then .inl c
    else scan_slot dur rest (if c < ue then ue else c)

/-- `search_service.find_non_overlapping_time`. -/
def find_non_overlapping_time (blocks : List CtxBlock) (timeTableId : Int)
    (durationMinutes : Nat) : Except String (String × String) :=
  match used_intervals blocks timeTableId with
  | .error e => .error e
  | .ok used =>
    let dur := durationMinutes * 60
    match scan_slot dur (sort_intervals used) DAY_START with
    | .inl c => .ok (formatTime c, formatTime (c + dur))
    | .inr c =>
      if c + dur ≤ DAY_END then .ok (formatTime c, formatTime (c + dur))
      else .ok ("19:00:00", "20:30:00")

def isPrefixL : List Char → List Char → Bool
  | [], _ => true
  | _ :: _, [] => false
  | a :: as, b :: bs => a == b && isPrefixL as bs

def isInfixL (sub : List Char) : List Char → Bool
  | [] => sub.isEmpty
  | c :: rest => isPrefixL sub (c :: rest) || isInfixL sub rest

/-- Python `sub in s` on strings. -/
def strContains (s sub : String) : Bool :=
  isInfixL sub.data s.data

def strLower (s : String) : String :=
  ⟨s.data.map Char.toLower⟩

/-- `search_service.detect_place_category`. -/
def detect_place_category (query : String) : Nat :=
  let q := strLower query
  if ["숙소", "호텔", "게스트하우스", "모텔", "펜션", "stay"].any (fun k => strContains q k) then 1
  else if ["맛집", "식당", "카페", "음식", "저녁", "점심", "회집", "회 "].any (fun k => strContains q k) then 2
  else 0

/-- `search_service.search_and_create_place_block`.  `ok none` is the
`{"error": "NO_PLACE_FOUND"}` return; `error` models a raised exception
(`_parse_time` on malformed context blocks). -/
def search_and_create_place_block (g : PlacesOracle) (geo : GeoOracle)
    (query : String) (timeTableId : Int) (ctx : PlanContext)
    (durationMinutes : Nat) : Except String (Option TPBlock) :=
  let existing := parse_blocks_from_plan ctx
  let location := get_location_from_plan geo ctx timeTableId
  match g query location 0 with
  | none => .ok none
  | some place =>
    match find_non_overlapping_time existing timeTableId durationMinutes with
    | .error e => .error e
    | .ok (startStr, endStr) =>
      .ok (some
        { blockId := -1
          placeName := place.placeName
          placeTheme := ""
          placeRating := place.placeRating
          placeAddress := place.placeAddress
          placeLink := place.placeLink
          blockStartTime := startStr
          blockEndTime := endStr
          xLocation := place.xLocation
          yLocation := place.yLocation
          placeId := place.placeId
          placeCategoryId := detect_place_category query
          timeTableId := timeTableId
          date := none })

/-- The per-query loop of `search_multiple_place_blocks`.  `counts` is the
`query_count` dict, `current` the absolute second count of
`current_start_dt`; a block whose wall-clock end time exceeds `DAY_END`
breaks the loop. -/
def multi_loop (g : PlacesOracle) (location : Option String) (timeTableId : Int)
    (dur : Nat) : List String → (String → Nat) → Nat → List TPBlock
  | [], _, _ => []
  | q :: rest, counts, current =>
    let idx := counts q
    let counts' := fun q' => if q' = q then idx + 1 else counts q'
    match g q location idx with
    | none => multi_loop g location timeTableId dur rest counts' current
    | some place =>
      let endAbs := current + dur
      if endAbs % 86400 > DAY_END then []
      else
        { blockId := -1
          placeName := place.placeName
          placeTheme := ""
          placeRating := place.placeRating
          placeAddress := place.placeAddress
          placeLink := place.placeLink
          blockStartTime := formatTime current
          blockEndTime := formatTime endAbs
          xLocation := place.xLocation
          yLocation := place.yLocation
          placeId := place.placeId
          placeCategoryId := detect_place_category q
          timeTableId := timeTableId
          date := none } :: multi_loop g location timeTableId dur rest counts' endAbs

/-- `search_service.search_multiple_place_blocks`. -/
def search_multiple_place_blocks (g : PlacesOracle) (geo : GeoOracle)
    (queries : List String) (timeTableId : Int) (ctx : PlanContext)
    (durationMinutes : Nat) : Except String (List TPBlock) :=
  let existing := parse_blocks_from_plan ctx
  let location := get_location_from_plan geo ctx timeTableId
  match find_non_overlapping_time existing timeTableId durationMinutes with
  | .error e => .error e
  | .ok (firstStart, _) =>
    match parse_time (JTime.str firstStart) with
    | .error e => .error e
    | .ok start0 =>
      .ok (multi_loop g location timeTableId (durationMinutes * 60) queries (fun _ => 0) start0)

/-! ### `auto_schedule.py` embedding. -/

/-- `get_existing_blocks_for_date`: filters the plan's blocks by date after
normalizing the block's date representation (`[Y, M, D]` array rendered as
`f"{Y:04d}-{M:02d}-{D:02d}"`, string kept as-is, anything else skipped).
An array with fewer than three elements makes the source raise
`IndexError`; that is the `error` case. -/
def get_existing_blocks_for_date (ctx : PlanContext) (dateStr : String) :
    Except String (List CtxBlock) :=
  go (parse_blocks_from_plan ctx)
where
  go : List CtxBlock → Except String (List CtxBlock)
    | [] => .ok []
    | b :: rest =>
      match b.date with
      | JDate.arr (y :: m :: d :: _) =>
        (match go rest with
         | .error e => .error e
         | .ok tl => .ok (if fmtDateNums y m d = dateStr then b :: tl else tl))
      | JDate.arr _ => .error "IndexError"
      | JDate.str s =>
        (match go rest with
         | .error e => .error e
         | .ok tl => .ok (if s = dateStr then b :: tl else tl))
      | JDate.null =>
        go rest

/-- Time coercion inside `has_time_conflict` and the lodging lookup: a
string goes through `strptime("%H:%M:%S")`; a non-string, non-falsy value
(an array) survives the `isinstance` checks and then makes the `<`
comparison with a `time` raise `TypeError`. -/
def conflict_time : JTime → Except String Nat
  | JTime.str s => strictHMS s
  | JTime.arr _ => .error "TypeError: comparison between time and list"
  | JTime.null => .error "TypeError: comparison between time and NoneType"

/-- `auto_schedule.has_time_conflict`.  The empty-list early return happens
before the candidate times are parsed, exactly as in the source. -/
def has_time_conflict (existing : List CtxBlock) (startTime endTime : String) :
    Except String Bool :=
  match existing with
  | [] => .ok false
  | _ =>
    match strictHMS startTime with
    | .error e => .error e
    | .ok cs =>
      match strictHMS endTime with
      | .error e => .error e
      | .ok ce => go cs ce existing
where
  go (cs ce : Nat) : List CtxBlock → Except String Bool
    | [] => .ok false
    | b :: rest =>
      if jtimeFalsy b.blockStartTime || jtimeFalsy b.blockEndTime then go cs ce rest
      else
        match conflict_time b.blockStartTime with
        | .error e => .error e
        | .ok bs =>
          match conflict_time b.blockEndTime with
          | .error e => .error e
          | .ok be =>
            if cs < be ∧ bs < ce then .ok true else go cs ce rest

/-- `auto_schedule.create_place_block` (`None` when the search fails). -/
def create_place_block (g : PlacesOracle) (query startTime endTime dateStr : String)
    (tempTimeTableId : Int) (location : Option String) (resultIndex : Nat) :
    Option TPBlock :=
  match g query location resultIndex with
  | none => none
  | some place =>
    some
      { blockId := -1
        placeName := place.placeName
        placeTheme := ""
        placeRating := place.placeRating
        placeAddress := place.placeAddress
        placeLink := place.placeLink
        blockStartTime := startTime
        blockEndTime := endTime
        xLocation := place.xLocation
        yLocation := place.yLocation
        placeId := place.placeId
        placeCategoryId := detect_place_category query
        timeTableId := tempTimeTableId
        date := some dateStr }

/-- `auto_schedule.create_place_block_from_data` (category hard-wired to
lodging). -/
def create_place_block_from_data (placeData : Place) (startTime endTime dateStr : String)
    (tempTimeTableId : Int) : TPBlock :=
  { blockId := -1
    placeName := placeData.placeName
    placeTheme := ""
    placeRating := placeData.placeRating
    placeAddress := placeData.placeAddress
    placeLink := placeData.placeLink
    blockStartTime := startTime
    blockEndTime := endTime
    xLocation := placeData.xLocation
    yLocation := placeData.yLocation
    placeId := placeData.placeId
    placeCategoryId := 1
    timeTableId := tempTimeTableId
    date := some dateStr }

/-- One slot of `create_daily_schedule`: conflict check, then the block
construction (a failed search or a conflict contributes no block). -/
def try_slot (existing : List CtxBlock) (slotStart slotEnd : String)
    (mk : Unit → List TPBlock) : Except String (List TPBlock) :=
  match has_time_conflict existing slotStart slotEnd with
  | .error e => .error e
  | .ok true => .ok []
  | .ok false => .ok (mk ())

def opt_to_list : Option TPBlock → List TPBlock
  | none => []
  | some b => [b]

/-- The lodging slot of `create_daily_schedule`
(`if not is_last_day and accommodation_place:` followed by the conflict
check and `create_place_block_from_data`; the dict built there is always
truthy, so it is always appended). -/
def lodging_slot (existing : List CtxBlock) (dateStr : String) (tid : Int)
    (isLastDay : Bool) (acc : Option Place) : Except String (List TPBlock) :=
  match isLastDay, acc with
  | false, some accP =>
    try_slot existing "21:00:00" "23:59:00"
      (fun _ => [create_place_block_from_data accP "21:00:00" "23:59:00" dateStr tid])
  | _, _ => .ok []

/-- `auto_schedule.create_daily_schedule`: morning sightseeing 09:00–11:00,
lunch 12:00–14:00, dinner 18:00–20:00 (theme alternating on the parity of
the day number), lodging 21:00–23:59 except on the last day; each slot is
skipped when it conflicts with an existing block of that date. -/
def create_daily_schedule (g : PlacesOracle) (dayNumber : Nat) (dateStr : String)
    (tempTimeTableId : Int) (destination : String) (isLastDay : Bool)
    (location : Option String) (accommodationPlace : Option Place)
    (ctx : PlanContext) : Except String (List TPBlock) :=
  match get_existing_blocks_for_date ctx dateStr with
  | .error e => .error e
  | .ok existing =>
    match try_slot existing "09:00:00" "11:00:00"
        (fun _ => opt_to_list (create_place_block g (destination ++ " 관광지")
          "09:00:00" "11:00:00" dateStr tempTimeTableId location (dayNumber - 1))) with
    | .error e => .error e
    | .ok morning =>
      match try_slot existing "12:00:00" "14:00:00"
          (fun _ => opt_to_list (create_place_block g (destination ++ " 맛집")
            "12:00:00" "14:00:00" dateStr tempTimeTableId location (dayNumber - 1))) with
      | .error e => .error e
      | .ok lunch =>
        match try_slot existing "18:00:00" "20:00:00"
            (fun _ => opt_to_list (create_place_block g
              (if dayNumber % 2 = 0 then destination ++ " 회 맛집" else destination ++ " 고기 맛집")
              "18:00:00" "20:00:00" dateStr tempTimeTableId location (dayNumber - 1))) with
        | .error e => .error e
        | .ok dinner =>
          match lodging_slot existing dateStr tempTimeTableId isLastDay accommodationPlace with
          | .error e => .error e
          | .ok lodging => .ok (morning ++ lunch ++ dinner ++ lodging)

/-- The lodging-slot scan over the first day's existing blocks
(`create_auto_schedule`, `existing_accommodation` loop): the first block
overlapping 21:00–23:59. -/
def find_existing_accommodation : List CtxBlock → Except String (Option CtxBlock)
  | [] => .ok none
  | b :: rest =>
    if jtimeFalsy b.blockStartTime || jtimeFalsy b.blockEndTime then
      find_existing_accommodation rest
    else
      match conflict_time b.blockStartTime with
      | .error e => .error e
      | .ok bs =>
        match conflict_time b.blockEndTime with
        | .error e => .error e
        | .ok be =>
          if bs < 86340 ∧ 75600 < be then .ok (some b)
          else find_existing_accommodation rest

/-- The lodging dict `accommodation_place` built from an existing block. -/
def place_of_ctx_block (b : CtxBlock) : Place :=
  { placeName := b.placeName
    placeRating := b.placeRating
    placeAddress := b.placeAddress
    placeLink := b.placeLink
    xLocation := b.xLocation
    yLocation := b.yLocation
    placeId := b.placeId }

/-- The TimeTable-create action dict
`{"action": "create", "targetName": "timeTable", "target": {"date": d}}`. -/
structure TTAction where
  action : String
  targetName : String
  targetDate : String
deriving DecidableEq

structure ScheduleResult where
  timeTables : List TTAction
  placeBlocks : List TPBlock
deriving DecidableEq

/-- The `for day in range(days)` loop of `create_auto_schedule`:
`dayIdx` is `day`, `rem` the number of days still to emit (so
`rem = 0` after this iteration means `day == days - 1`, the last day).
Every day unconditionally contributes one TimeTable-create action and uses
the placeholder id `-(day + 1)`. -/
def auto_days_loop (g : PlacesOracle) (ctx : PlanContext) (destination : String)
    (location : Option String) (accommodation : Option Place) (startD : PDate) :
    Nat → Nat → Except String (List TTAction × List TPBlock)
  | _, 0 => .ok ([], [])
  | dayIdx, rem + 1 =>
    let dateStr := format_date (addDays startD dayIdx)
    let tta : TTAction := { action := "create", targetName := "timeTable", targetDate := dateStr }
    match create_daily_schedule g (dayIdx + 1) dateStr (-(Int.ofNat dayIdx + 1)) destination
        (rem == 0) location accommodation ctx with
    | .error e => .error e
    | .ok dayBlocks =>
      match auto_days_loop g ctx destination location accommodation startD (dayIdx + 1) rem with
      | .error e => .error e
      | .ok (tts, blocks) => .ok (tta :: tts, dayBlocks ++ blocks)

/-- The lodging pre-pass of `create_auto_schedule`: only for trips longer
than one day; reuse an existing first-day block overlapping 21:00–23:59,
otherwise search for `f"{destination} 호텔"` biased by `TravelName`. -/
def accommodation_step (g : PlacesOracle) (days : Nat) (startD : PDate)
    (ctx : PlanContext) (destination : String) : Except String (Option Place) :=
  if days > 1 then
    match get_existing_blocks_for_date ctx (format_date startD) with
    | .error e => .error e
    | .ok firstDayBlocks =>
      match find_existing_accommodation firstDayBlocks with
      | .error e => .error e
      | .ok (some b) => .ok (some (place_of_ctx_block b))
      | .ok none => .ok (g (destination ++ " 호텔") ctx.TravelName 0)
  else .ok none

/-- `auto_schedule.create_auto_schedule` (`location` is always
`planContext.get("TravelName")`). -/
def create_auto_schedule (g : PlacesOracle) (days : Nat) (startDate : String)
    (ctx : PlanContext) (destination : String) : Except String ScheduleResult :=
  match parse_date startDate with
  | .error e => .error e
  | .ok startD =>
    match accommodation_step g days startD ctx destination with
    | .error e => .error e
    | .ok accommodation =>
      match auto_days_loop g ctx destination ctx.TravelName accommodation startD 0 days with
      | .error e => .error e
      | .ok (tts, blocks) => .ok { timeTables := tts, placeBlocks := blocks }

/-! ### JSON values and Python-dict operations for the normalizer. -/

/-- A parsed JSON value.  Numbers are uninterpreted `Int` scalars (the
normalizer only wraps them, never computes with them); Python `bool` is a
separate constructor but, as in Python, counts as a number for the
`isinstance(.., (int, float))` dispatch. -/
inductive Json where
  | null
  | bool (b : Bool)
  | num (n : Int)
  | str (s : String)
  | arr (l : List Json)
  | obj (fields : List (String × Json))

/-- A JSON object / Python dict, as an insertion-ordered association list
(JSON parsing yields unique keys). -/
abbrev JObj := List (String × Json)

def get_val : JObj → String → Option Json
  | [], _ => none
  | (k', v) :: rest, k => if k' = k then some v else get_val rest k

/-- Python `d.get(k)`: both a missing key and a JSON `null` value come back
as `None`. -/
def getPy (d : JObj) (k : String) : Option Json :=
  match get_val d k with
  | some Json.null => none
  | r => r

/-- Python `k in d` (key presence, regardless of a `null` value). -/
def contains_key (d : JObj) (k : String) : Bool :=
  (get_val d k).isSome

/-- Python `d[k] = v`: replace in place when the key exists (preserving its
position), append otherwise. -/
def set_key : JObj → String → Json → JObj
  | [], k, v => [(k, v)]
  | (k', v') :: rest, k, v =>
    if k' = k then (k, v) :: rest else (k', v') :: set_key rest k v

/-- Python `del d[k]` for each key of `ks` / `d.pop(k, None)`. -/
def del_keys (d : JObj) (ks : List String) : JObj :=
  d.filter (fun p => !(ks.contains p.1))

/-- Python `key.startswith(pre)` (char-list implementation; the library
`String.startsWith` is not kernel-reducible). -/
def str_starts_with (s pre : String) : Bool :=
  isPrefixL pre.data s.data

/-- The `target*`-prefixed fields collected by the recovery branch of
`_normalize_actions` (everything starting with `target` except `target`
itself and `targetName`). -/
def target_prefixed_fields (d : JObj) : JObj :=
  d.filter (fun p => str_starts_with p.1 "target" && p.1 != "target" && p.1 != "targetName")

/-- Wrapping of a `robust_json_parse` result: a mapping is used as-is,
anything else becomes `{"raw_string_data": value}`. -/
def wrap_parsed (v : Json) : Json :=
  match v with
  | Json.obj o => Json.obj o
  | v => Json.obj [("raw_string_data", v)]

/-- The list-valued `target` dispatch of `_normalize_actions`:
first element if it is a mapping; JSON-repaired first element if it is a
string; `{"list_data": <whole list>}` for any other non-empty list; `{}`
for the empty list. -/
def normalize_list_target (rjp : String → Json) (l : List Json) : Json :=
  match l with
  | [] => Json.obj []
  | Json.obj o :: _ => Json.obj o
  | Json.str s :: _ => wrap_parsed (rjp s)
  | _ :: _ => Json.obj [("list_data", Json.arr l)]

/-- Per-entry normalization of `_normalize_actions` (the body of the loop
after the entry has been established to be a dict): the
`target*`-prefix recovery, then the type dispatch on `target`. -/
def normalize_entry (rjp : String → Json) (d : JObj) : JObj :=
  let step1 : JObj × Option Json :=
    match getPy d "target" with
    | none =>
      if contains_key d "targetName" then
        let payload := target_prefixed_fields d
        if payload.isEmpty then
          (set_key d "target" (Json.obj []), some (Json.obj []))
        else
          (set_key (del_keys d (payload.map (fun p => p.1))) "target" (Json.obj payload),
           some (Json.obj payload))
      else (d, none)
    | some v => (d, some v)
  let d1 := step1.1
  match step1.2 with
  | none => set_key d1 "target" (Json.obj [])
  | some (Json.arr l) => set_key d1 "target" (normalize_list_target rjp l)
  | some (Json.str s) => set_key d1 "target" (wrap_parsed (rjp s))
  | some (Json.num n) => set_key d1 "target" (Json.obj [("value", Json.num n)])
  | some (Json.bool b) => set_key d1 "target" (Json.obj [("value", Json.bool b)])
  | some Json.null => set_key d1 "target" (Json.obj [])
  | some (Json.obj _) => d1

/-- The entry loop of `_normalize_actions`: `None` entries are skipped,
one-element lists are unwrapped to their sole element (`entry[0] if entry
else None`), non-dict entries are dropped with a log. -/
def normalize_actions_list (rjp : String → Json) : List Json → List JObj
  | [] => []
  | e :: rest =>
    match e with
    | Json.null => normalize_actions_list rjp rest
    | Json.arr l =>
      (match l with
       | Json.obj d :: _ => normalize_entry rjp d :: normalize_actions_list rjp rest
       | _ => normalize_actions_list rjp rest)
    | Json.obj d => normalize_entry rjp d :: normalize_actions_list rjp rest
    | _ => normalize_actions_list rjp rest

/-- `chatbot_service._normalize_actions`.  The input is the value of the
`actions`/`action` key as Python sees it (`none` = Python `None`); a
non-list input is wrapped in a one-element list. -/
def normalize_actions (rjp : String → Json) (raw : Option Json) : List JObj :=
  match raw with
  | none => []
  | some (Json.arr l) => normalize_actions_list rjp l
  | some v => normalize_actions_list rjp [v]

/-! ### `chatbot_service.py` response types, validation and handler. -/

/-- `models.ActionData`. -/
structure ActionData where
  action : String
  targetName : String
  target : JObj

/-- `models.ChatBotActionResponse`. -/
structure ChatBotActionResponse where
  userMessage : String
  hasAction : Bool
  actions : List ActionData

/-- `chatbot_service.simple_message`. -/
def simple_message (m : String) : ChatBotActionResponse :=
  ⟨m, false, []⟩

/-- Python truthiness of a JSON value. -/
def truthy : Json → Bool
  | Json.null => false
  | Json.bool b => b
  | Json.num n => n != 0
  | Json.str s => s != ""
  | Json.arr l => !l.isEmpty
  | Json.obj d => !d.isEmpty

def truthy_opt : Option Json → Bool
  | some v => truthy v
  | none => false

/-- Pydantic v2 coercion into a `bool` field (`True`/`False`, the usual
string spellings, and 0/1; anything else is a validation error). -/
def coerce_bool : Json → Option Bool
  | Json.bool b => some b
  | Json.num 0 => some false
  | Json.num 1 => some true
  | Json.str s =>
    if ["true", "yes", "on", "y", "t", "1"].contains (strLower s) then some true
    else if ["false", "no", "off", "n", "f", "0"].contains (strLower s) then some false
    else none
  | _ => none

/-- Pydantic validation of one `ActionData` (string `action` and
`targetName`, mapping `target`; extra keys are ignored). -/
def validate_action_entry (d : JObj) : Option ActionData :=
  match get_val d "action", get_val d "targetName", get_val d "target" with
  | some (Json.str a), some (Json.str tn), some (Json.obj t) => some ⟨a, tn, t⟩
  | _, _, _ => none

def validate_entries : List Json → Option (List ActionData)
  | [] => some []
  | Json.obj d :: rest =>
    (match validate_action_entry d, validate_entries rest with
     | some a, some l => some (a :: l)
     | _, _ => none)
  | _ :: _ => none

/-- `models.AIResponse` after validation. -/
structure AIResp where
  userMessage : String
  hasAction : Bool
  actions : List ActionData

/-- Pydantic validation `AIResponse(**d)`: required string `userMessage`,
required bool-coercible `hasAction`, `actions` defaulting to `[]` when
missing. -/
def validate_ai_response (d : JObj) : Option AIResp :=
  match get_val d "userMessage", get_val d "hasAction" with
  | some (Json.str um), some hv =>
    (match coerce_bool hv with
     | some hb =>
       (match get_val d "actions" with
        | none => some ⟨um, hb, []⟩
        | some (Json.arr l) =>
          (match validate_entries l with
           | some acts => some ⟨um, hb, acts⟩
           | none => none)
        | some _ => none)
     | none => none)
  | _, _ => none

/-- The created-block dict as it is stored inside an `ActionData.target`
on the tool-call path. -/
def block_to_obj (b : TPBlock) : JObj :=
  [("blockId", Json.num b.blockId),
   ("placeName", Json.str b.placeName),
   ("placeTheme", Json.str b.placeTheme),
   ("placeRating", Json.num b.placeRating),
   ("placeAddress", Json.str b.placeAddress),
   ("placeLink", Json.str b.placeLink),
   ("blockStartTime", Json.str b.blockStartTime),
   ("blockEndTime", Json.str b.blockEndTime),
   ("xLocation", match b.xLocation with | some n => Json.num n | none => Json.null),
   ("yLocation", match b.yLocation with | some n => Json.num n | none => Json.null),
   ("placeId", Json.str b.placeId),
   ("placeCategoryId", Json.num (Int.ofNat b.placeCategoryId)),
   ("timeTableId", Json.num b.timeTableId)]

def make_action (b : TPBlock) : ActionData :=
  ⟨"create", "timeTablePlaceBlock", block_to_obj b⟩

/-- The fixed "place not found" reply of the tool-call path. -/
def place_not_found_response : ChatBotActionResponse :=
  ⟨"죄송합니다. 요청하신 장소를 찾을 수 없어요. Google Places API 오류가 발생했거나 검색 결과가 없습니다.",
   false, []⟩

/-- One recognized model tool invocation after argument fix-up
(`planContext` force-injected, `timeTableId` coerced to `int`): a
single-place search, a multi-place search, or any part without a usable
`function_call` (skipped by the loop).  `durationMinutes` covers both an
explicit argument and the Python default of 90. -/
inductive ToolPart where
  | single (query : String) (timeTableId : Int) (durationMinutes : Nat)
  | multi (queries : List String) (timeTableId : Int) (durationMinutes : Nat)
  | other
deriving DecidableEq

/-- The `function_call` processing loop of `handle_java_chatbot_request`:
`inl r` is an early `return r` (the place-not-found reply), `inr acts` the
accumulated actions after all parts. -/
def tool_loop (g : PlacesOracle) (geo : GeoOracle) (ctx : PlanContext) :
    List ToolPart → List ActionData →
    Except String (ChatBotActionResponse ⊕ List ActionData)
  | [], acc => .ok (.inr acc)
  | ToolPart.other :: rest, acc => tool_loop g geo ctx rest acc
  | ToolPart.single q ttid dur :: rest, acc =>
    (match search_and_create_place_block g geo q ttid ctx dur with
     | .error e => .error e
     | .ok none => .ok (.inl place_not_found_response)
     | .ok (some b) => tool_loop g geo ctx rest (acc ++ [make_action b]))
  | ToolPart.multi qs ttid dur :: rest, acc =>
    (match search_multiple_place_blocks g geo qs ttid ctx dur with
     | .error e => .error e
     | .ok blocks =>
       if blocks.length = 0 then .ok (.inl place_not_found_response)
       else tool_loop g geo ctx rest (acc ++ blocks.map make_action))

/-- The success summary `f"{', '.join(names[:3])}{'...' if len > 3 else ''}
 일정을 추가했어요!"` built from the actions' `placeName`s. -/
def summary_user_message (actions : List ActionData) : String :=
  let names := actions.map (fun a =>
    match getPy a.target "placeName" with
    | some (Json.str s) => s
    | _ => "장소")
  if names.length > 0 then
    String.intercalate ", " (names.take 3)
      ++ (if names.length > 3 then "..." else "") ++ " 일정을 추가했어요!"
  else "요청하신 장소들을 일정에 추가했어요."

def trimChars (l : List Char) : List Char :=
  ((l.dropWhile Char.isWhitespace).reverse.dropWhile Char.isWhitespace).reverse

/-- Code-fence stripping of the free-text path (```json prefix, ```
prefix/suffix, then `str.strip()`), implemented on char lists so that it
is kernel-reducible. -/
def strip_code_fences (raw : String) : String :=
  let l := raw.data
  let l1 := if isPrefixL "```json".data l then l.drop 7 else l
  let l2 := if isPrefixL "```".data l1 then l1.drop 3 else l1
  let l3 := if isPrefixL "```".data.reverse l2.reverse then l2.take (l2.length - 3) else l2
  String.mk (trimChars l3)

/-- The free-text JSON path of `handle_java_chatbot_request`:
strip fences, strict-parse (`pj`), resolve `actions` vs legacy `action`,
normalize, force `hasAction := false` when the model asserted it with no
surviving actions, validate, and build the final reply.  The
operator-facing text of the validation-failure diagnostic (which embeds
the exception and a serialized target sample) is abbreviated to its fixed
prefix; no claim depends on it. -/
def free_text_path (rjp : String → Json) (pj : String → Option Json)
    (raw : String) : ChatBotActionResponse :=
  let stripped := strip_code_fences raw
  match pj stripped with
  | some (Json.obj d) =>
    let ra0 := getPy d "actions"
    let ra := match ra0 with
      | some v => some v
      | none => if contains_key d "action" then getPy d "action" else none
    let normalized := normalize_actions rjp ra
    let d1 := set_key d "actions" (Json.arr (normalized.map Json.obj))
    let d2 := del_keys d1 ["action"]
    let d3 :=
      if truthy_opt (getPy d2 "hasAction") && normalized.isEmpty then
        set_key d2 "hasAction" (Json.bool false)
      else d2
    (match validate_ai_response d3 with
     | none => simple_message "AI 응답 형식에 문제가 있습니다."
     | some resp =>
       if resp.hasAction && !resp.actions.isEmpty then
         ⟨resp.userMessage, true, resp.actions⟩
       else ⟨resp.userMessage, false, []⟩)
  | _ => simple_message ("AI 응답 전체 JSON 형식 오류. 원본: " ++ stripped)

/-- `chatbot_service.handle_java_chatbot_request`, taking the model's
response (recognized tool parts plus raw text) as input: the tool-call
loop runs first; if it produced at least one action the summary reply is
returned and the free-text path is never consulted; otherwise the raw
text is normalized.  `error` models an exception escaping the handler
(only possible inside the un-`try`ed tool loop). -/
def handle_java_chatbot_request (g : PlacesOracle) (geo : GeoOracle)
    (rjp : String → Json) (pj : String → Option Json) (ctx : PlanContext)
    (parts : List ToolPart) (rawText : String) :
    Except String ChatBotActionResponse :=
  match tool_loop g geo ctx parts [] with
  | .error e => .error e
  | .ok (.inl resp) => .ok resp
  | .ok (.inr actions) =>
    if actions.length > 0 then .ok ⟨summary_user_message actions, true, actions⟩
    else .ok (free_text_path rjp pj rawText)

/-- `chatbot_gemini_handler.handle_java_chatbot_request`.  `gmodel` is the
module-level `gemini_model` (`none` when unset), `gen` the
`generate_content(...).text` of the collaborator (`none`/empty = no
usable text).  After a successful parse and validation the source
evaluates `ai_response_data.hasAction and ai_response_data.action`:
Python short-circuits, so when `hasAction` is falsy the else branch
returns the model's own `userMessage` with `hasAction = False` (the
stray `action=None` keyword is ignored by the response model and
`actions` defaults to `[]`); when `hasAction` is truthy, reading
`.action` — a field `models.AIResponse` does not define — raises
`AttributeError`, which the enclosing `except` catches and surfaces
through `simple_message`.  The body never lets an exception escape, so
the result is a plain value. -/
def handle_java_chatbot_request_gemini (gmodel : Option Unit)
    (gen : Unit → Option String) (pj : String → Option Json) :
    ChatBotActionResponse :=
  match gmodel with
  | none => simple_message "Gemini 모델이 설정되지 않았습니다. AI 서비스를 사용할 수 없습니다."
  | some m =>
    match gen m with
    | none => simple_message "AI 응답을 받지 못했습니다."
    | some t =>
      if t = "" then simple_message "AI 응답을 받지 못했습니다."
      else
        match pj t with
        | some (Json.obj d) =>
          (match validate_ai_response d with
           | some resp =>
             if resp.hasAction then
               simple_message "AI 챗봇 서비스 호출 중 오류 발생: AttributeError"
             else ⟨resp.userMessage, false, []⟩
           | none => simple_message ("AI가 응답했지만 구조를 알 수 없습니다: " ++ t))
        | _ => simple_message ("AI가 응답했지만 구조를 알 수 없습니다: " ++ t)

/-! ### Shared concrete oracle instantiations (used by witnesses). -/

def oracle_none : PlacesOracle := fun _ _ _ => none

def oracle_geo_none : GeoOracle := fun _ => none

/-- A legitimate `robust_json_parse` behaviour: parsing always fails and
the original string is returned unchanged. -/
def rjp_id : String → Json := fun s => Json.str s

/-- A `json.loads` behaviour where nothing parses. -/
def pj_none : String → Option Json := fun _ => none

/-! ### Helper lemmas about dict operations and the normalizer. -/

theorem get_val_set_key (d : JObj) (k : String) (v : Json) :
    get_val (set_key d k v) k = some v := by
  induction d with
  | nil => simp [set_key, get_val]
  | cons p rest ih =>
    by_cases h : p.1 = k
    · simp [set_key, h, get_val]
    · simp [set_key, h, get_val, ih]

theorem getPy_eq_some {d : JObj} {k : String} {v : Json}
    (h : getPy d k = some v) : get_val d k = some v := by
  unfold getPy at h
  rcases hv : get_val d k with _ | w
  · simp [hv] at h
  · cases w <;> simp_all [hv]

theorem wrap_parsed_is_obj (v : Json) : ∃ o, wrap_parsed v = Json.obj o := by
  cases v <;> simp [wrap_parsed]

theorem normalize_list_target_is_obj (rjp : String → Json) (l : List Json) :
    ∃ o, normalize_list_target rjp l = Json.obj o := by
  unfold normalize_list_target
  rcases l with _ | ⟨e, rest⟩
  · exact ⟨[], rfl⟩
  · cases e <;> first
      | exact wrap_parsed_is_obj _
      | exact ⟨_, rfl⟩

/-- Every entry leaving `normalize_entry` carries a mapping `target`. -/
theorem normalize_entry_target (rjp : String → Json) (d : JObj) :
    ∃ o, get_val (normalize_entry rjp d) "target" = some (Json.obj o) := by
  unfold normalize_entry
  rcases h : getPy d "target" with _ | v
  · by_cases hn : contains_key d "targetName"
    · by_cases hp : (target_prefixed_fields d).isEmpty
      · simpa [h, hn, hp] using ⟨[], get_val_set_key _ _ _⟩
      · simpa [h, hn, hp] using ⟨target_prefixed_fields d, get_val_set_key _ _ _⟩
    · simpa [h, hn] using ⟨[], get_val_set_key _ _ _⟩
  · cases v with
    | null => simpa [h] using ⟨[], get_val_set_key _ _ _⟩
    | bool b => simpa [h] using ⟨_, get_val_set_key _ _ _⟩
    | num n => simpa [h] using ⟨_, get_val_set_key _ _ _⟩
    | str s =>
      obtain ⟨o, ho⟩ := wrap_parsed_is_obj (rjp s)
      refine ⟨o, ?_⟩
      simp only [h]
      rw [get_val_set_key, ho]
    | arr l =>
      obtain ⟨o, ho⟩ := normalize_list_target_is_obj rjp l
      refine ⟨o, ?_⟩
      simp only [h]
      rw [get_val_set_key, ho]
    | obj o => exact ⟨o, by simp [h, getPy_eq_some h]⟩

theorem normalize_actions_list_target (rjp : String → Json) (l : List Json) :
    ∀ e ∈ normalize_actions_list rjp l, ∃ o, get_val e "target" = some (Json.obj o) := by
  induction l with
  | nil => simp [normalize_actions_list]
  | cons x rest ih =>
    intro e he
    unfold normalize_actions_list at he
    cases x with
    | null => exact ih e he
    | bool b => exact ih e he
    | num n => exact ih e he
    | str s => exact ih e he
    | obj d =>
      rcases List.mem_cons.mp he with h | h
      · exact h ▸ normalize_entry_target rjp d
      · exact ih e h
    | arr inner =>
      rcases inner with _ | ⟨hd, tl⟩
      · exact ih e he
      · cases hd with
        | obj d =>
          rcases List.mem_cons.mp he with h | h
          · exact h ▸ normalize_entry_target rjp d
          · exact ih e h
        | null => exact ih e he
        | bool b => exact ih e he
        | num n => exact ih e he
        | str s => exact ih e he
        | arr l2 => exact ih e he

/-- C2.  For every possible `raw_actions` input to `_normalize_actions`
(`None`, a single mapping, or a list whose entries may be `None`, nested
one-element lists, non-mappings, or mappings whose `target` is a list,
string, number, boolean, null or absent), every entry of the returned list
carries a `target` key whose value is a mapping.  (Entries of the result
are dicts by the result type `List JObj`, mirroring that the source only
ever appends dicts; non-mapping entries are dropped by
`normalize_actions_list` and never reach the output.) -/
theorem c2_normalized_target_is_mapping (rjp : String → Json) (raw : Option Json) :
    ∀ e ∈ normalize_actions rjp raw, ∃ o, get_val e "target" = some (Json.obj o) := by
  rcases raw with _ | v
  · simp [normalize_actions]
  · cases v <;> exact normalize_actions_list_target rjp _

/-- Witness for C2 at the concrete input
`{"target": "x"}` (a string-valued `target`): the normalized entry's
`target` is a mapping. -/
theorem c2_witness :
    ∃ o, get_val [("target", Json.obj [("raw_string_data", Json.str "x")])] "target"
      = some (Json.obj o) :=
  c2_normalized_target_is_mapping rjp_id (some (Json.obj [("target", Json.str "x")]))
    [("target", Json.obj [("raw_string_data", Json.str "x")])] (List.Mem.head _)

/-- C7 counterexample.  For the action entry `{"target": [42]}` — a list
whose first element is neither a mapping nor a string — the source sets
`target` to `{"list_data": [42]}`, not to the empty mapping `{}` the claim
requires. -/
theorem c7_counterexample :
    normalize_actions rjp_id (some (Json.arr [Json.obj [("target", Json.arr [Json.num 42])]]))
      = [[("target", Json.obj [("list_data", Json.arr [Json.num 42])])]]
    ∧ Json.obj [("list_data", Json.arr [Json.num 42])] ≠ Json.obj [] := by
  constructor
  · rfl
  · simp

/-- C7 (amended).  For every action entry whose `target` is a list,
`_normalize_actions` sets `target` to: the first element when it is a
mapping; the JSON-repaired parse of the first element when it is a string
(kept if the parse yields a mapping, else wrapped as
`{"raw_string_data": <value>}`); the empty mapping `{}` when the list is
empty; and `{"list_data": <the original list>}` when the first element is
otherwise unusable (neither a mapping nor a string). -/
theorem c7_list_target_normalization (rjp : String → Json) (d : JObj) (l : List Json)
    (h : getPy d "target" = some (Json.arr l)) :
    normalize_actions rjp (some (Json.obj d))
      = [set_key d "target" (normalize_list_target rjp l)] := by
  simp [normalize_actions, normalize_actions_list, normalize_entry, h]

/-- Witness for C7 (amended) at `{"target": [42]}`. -/
theorem c7_witness :
    normalize_actions rjp_id (some (Json.obj [("target", Json.arr [Json.num 42])]))
      = [set_key [("target", Json.arr [Json.num 42])] "target"
          (normalize_list_target rjp_id [Json.num 42])] :=
  c7_list_target_normalization rjp_id [("target", Json.arr [Json.num 42])] [Json.num 42] rfl

/-- C8 counterexample.  For the entry `{"targetDate": "2025-01-01"}` —
`target` absent, a `target`-prefixed sibling present, but no `targetName`
key — the source does *not* collect the prefixed field: the recovery
branch additionally requires `'targetName' in action_dict`, so the entry
keeps `targetDate` at top level and gets the empty mapping as `target`. -/
theorem c8_counterexample :
    normalize_actions rjp_id (some (Json.obj [("targetDate", Json.str "2025-01-01")]))
      = [[("targetDate", Json.str "2025-01-01"), ("target", Json.obj [])]]
    ∧ ¬ (get_val [("targetDate", Json.str "2025-01-01"), ("target", Json.obj [])] "target"
          = some (Json.obj [("targetDate", Json.str "2025-01-01")])) := by
  constructor
  · rfl
  · simp [get_val]

/-- C8 (amended).  For every action entry in which `target` is absent (or
null), **`targetName` is present**, and at least one other
`target`-prefixed field is present, `_normalize_actions` builds a fresh
`target` mapping from exactly those prefixed fields, removes them from the
top level of the entry, and installs the built mapping as the entry's
`target`. -/
theorem c8_prefix_recovery (rjp : String → Json) (d : JObj)
    (h : getPy d "target" = none)
    (hn : contains_key d "targetName" = true)
    (hp : target_prefixed_fields d ≠ []) :
    normalize_actions rjp (some (Json.obj d))
      = [set_key (del_keys d ((target_prefixed_fields d).map (fun p => p.1))) "target"
          (Json.obj (target_prefixed_fields d))] := by
  have hp' : (target_prefixed_fields d).isEmpty = false := by
    simpa [List.isEmpty_iff] using hp
  simp [normalize_actions, normalize_actions_list, normalize_entry, h, hn, hp']

/-- Witness for C8 (amended) at
`{"targetName": "timeTable", "targetDate": "2025-01-01"}`. -/
theorem c8_witness :
    normalize_actions rjp_id
        (some (Json.obj [("targetName", Json.str "timeTable"),
                         ("targetDate", Json.str "2025-01-01")]))
      = [set_key (del_keys
            [("targetName", Json.str "timeTable"), ("targetDate", Json.str "2025-01-01")]
            ((target_prefixed_fields
              [("targetName", Json.str "timeTable"),
               ("targetDate", Json.str "2025-01-01")]).map (fun p => p.1))) "target"
          (Json.obj (target_prefixed_fields
            [("targetName", Json.str "timeTable"),
             ("targetDate", Json.str "2025-01-01")]))] :=
  c8_prefix_recovery rjp_id
    [("targetName", Json.str "timeTable"), ("targetDate", Json.str "2025-01-01")]
    rfl rfl (by
      rw [show target_prefixed_fields
        [("targetName", Json.str "timeTable"), ("targetDate", Json.str "2025-01-01")]
        = [("targetDate", Json.str "2025-01-01")] from rfl]
      simp)

/-- C5.  While the language-model collaborator is unset
(`gemini_model is None`), the chat handler returns the fixed diagnostic
reply with `hasAction = false` and no actions — for *every* behaviour
`gen` of the generation collaborator, so no model call can influence (or
be observed in) the result — and, the embedding being a total function
into plain `ChatBotActionResponse`, no exception escapes the handler. -/
theorem c5_gemini_unset_fixed_reply (gen : Unit → Option String)
    (pj : String → Option Json) :
    handle_java_chatbot_request_gemini none gen pj
        = simple_message "Gemini 모델이 설정되지 않았습니다. AI 서비스를 사용할 수 없습니다."
      ∧ (handle_java_chatbot_request_gemini none gen pj).hasAction = false
      ∧ (handle_java_chatbot_request_gemini none gen pj).actions = [] :=
  ⟨rfl, rfl, rfl⟩

/-! ### Lemmas about the tool-call loop and the free-text path. -/

/-- The only early return of the tool loop is the fixed place-not-found
reply. -/
theorem tool_loop_inl (g : PlacesOracle) (geo : GeoOracle) (ctx : PlanContext) :
    ∀ (parts : List ToolPart) (acc : List ActionData) (r : ChatBotActionResponse),
      tool_loop g geo ctx parts acc = .ok (.inl r) → r = place_not_found_response := by
  intro parts
  induction parts with
  | nil => intro acc r h; simp [tool_loop] at h
  | cons p rest ih =>
    intro acc r h
    cases p with
    | other => exact ih _ _ (by simpa [tool_loop] using h)
    | single q ttid dur =>
      simp only [tool_loop] at h
      rcases hs : search_and_create_place_block g geo q ttid ctx dur with _ | ob
      · rw [hs] at h; simp at h
      · rcases ob with _ | b
        · rw [hs] at h; simp at h; exact h.symm
        · rw [hs] at h; exact ih _ _ h
    | multi qs ttid dur =>
      simp only [tool_loop] at h
      rcases hs : search_multiple_place_blocks g geo qs ttid ctx dur with _ | blocks
      · rw [hs] at h; simp at h
      · rw [hs] at h
        by_cases hb : blocks.length = 0
        · simp only [hb, if_pos rfl] at h
          simp at h; exact h.symm
        · simp only [if_neg hb] at h
          exact ih _ _ h

/-- Every reply produced by the free-text JSON path satisfies the
`hasAction ↔ actions ≠ []` law. -/
theorem free_text_path_consistent (rjp : String → Json) (pj : String → Option Json)
    (raw : String) :
    ((free_text_path rjp pj raw).hasAction = true
      ↔ (free_text_path rjp pj raw).actions ≠ []) := by
  unfold free_text_path
  rcases hp : pj (strip_code_fences raw) with _ | v
  · simp [hp, simple_message]
  · cases v with
    | obj d =>
      simp only [hp]
      split
      · simp [simple_message]
      · rename_i r heq
        by_cases hb : (r.hasAction && !r.actions.isEmpty) = true
        · have hne : r.actions ≠ [] := by
            have := (Bool.and_eq_true _ _).mp hb
            simpa [List.isEmpty_iff] using this.2
          simp [hb, hne]
        · simp [hb]
    | null => simp [hp, simple_message]
    | bool b => simp [hp, simple_message]
    | num n => simp [hp, simple_message]
    | str s => simp [hp, simple_message]
    | arr l => simp [hp, simple_message]

/-- C1.  For every reply the chat handler returns — over the tool-call
path (early place-not-found return, success summary) and the free-text
JSON path with every possible parser/normalizer/validation outcome —
`hasAction` is `true` iff the `actions` sequence is non-empty.  In
particular the `hasAction`-asserted-but-no-actions case is forced to
`false` by the normalizing pipeline before validation and by the final
response construction. -/
theorem c1_has_action_iff_actions_nonempty (g : PlacesOracle) (geo : GeoOracle)
    (rjp : String → Json) (pj : String → Option Json) (ctx : PlanContext)
    (parts : List ToolPart) (rawText : String) (resp : ChatBotActionResponse)
    (h : handle_java_chatbot_request g geo rjp pj ctx parts rawText = .ok resp) :
    resp.hasAction = true ↔ resp.actions ≠ [] := by
  unfold handle_java_chatbot_request at h
  rcases ht : tool_loop g geo ctx parts [] with e | out
  · rw [ht] at h; simp at h
  · rw [ht] at h
    rcases out with r | acts
    · simp at h
      have hr := tool_loop_inl g geo ctx parts [] r ht
      subst h; subst hr
      simp [place_not_found_response]
    · by_cases ha : acts.length > 0
      · simp only [if_pos ha] at h
        simp at h
        subst h
        have : acts ≠ [] := by
          intro hnil; rw [hnil] at ha; simp at ha
        simp [this]
      · simp only [if_neg ha] at h
        simp at h
        subst h
        exact free_text_path_consistent rjp pj rawText

/-- Witness for C1: a concrete run through the free-text path whose parse
fails (no tool invocations, unparseable text) — a diagnostic reply with
`hasAction = false` and no actions. -/
theorem c1_witness :
    ((simple_message ("AI 응답 전체 JSON 형식 오류. 원본: hi")).hasAction = true
      ↔ (simple_message ("AI 응답 전체 JSON 형식 오류. 원본: hi")).actions ≠ []) :=
  c1_has_action_iff_actions_nonempty oracle_none oracle_geo_none rjp_id pj_none
    empty_ctx [] "hi" (simple_message ("AI 응답 전체 JSON 형식 오류. 원본: hi")) rfl

/-- A tool invocation "reports no results": the single-place search
returns its error dict, or the multi-place search returns an empty list. -/
def tool_part_fails (g : PlacesOracle) (geo : GeoOracle) (ctx : PlanContext) :
    ToolPart → Prop
  | ToolPart.single q ttid dur =>
    search_and_create_place_block g geo q ttid ctx dur = .ok none
  | ToolPart.multi qs ttid dur =>
    search_multiple_place_blocks g geo qs ttid ctx dur = .ok []
  | ToolPart.other => False

/-- If any invocation of the part list reports no results, the tool loop
ends in the early place-not-found return (whatever actions were
accumulated before). -/
theorem tool_loop_fails (g : PlacesOracle) (geo : GeoOracle) (ctx : PlanContext) :
    ∀ (parts : List ToolPart) (acc : List ActionData)
      (out : ChatBotActionResponse ⊕ List ActionData),
      (∃ p ∈ parts, tool_part_fails g geo ctx p) →
      tool_loop g geo ctx parts acc = .ok out →
      out = .inl place_not_found_response := by
  intro parts
  induction parts with
  | nil =>
    rintro acc out ⟨p, hp, _⟩ h
    simp at hp
  | cons q rest ih =>
    rintro acc out ⟨p, hp, hf⟩ h
    cases q with
    | other =>
      rcases List.mem_cons.mp hp with rfl | hmem
      · exact absurd hf (by simp [tool_part_fails])
      · exact ih _ _ ⟨p, hmem, hf⟩ (by simpa [tool_loop] using h)
    | single qq ttid dur =>
      simp only [tool_loop] at h
      rcases hs : search_and_create_place_block g geo qq ttid ctx dur with _ | ob
      · rw [hs] at h; simp at h
      · rcases ob with _ | b
        · rw [hs] at h; simp at h; exact h.symm
        · rw [hs] at h
          rcases List.mem_cons.mp hp with rfl | hmem
          · rw [tool_part_fails, hs] at hf; simp at hf
          · exact ih _ _ ⟨p, hmem, hf⟩ h
    | multi qs ttid dur =>
      simp only [tool_loop] at h
      rcases hs : search_multiple_place_blocks g geo qs ttid ctx dur with _ | blocks
      · rw [hs] at h; simp at h
      · rw [hs] at h
        by_cases hb : blocks.length = 0
        · simp only [hb, if_pos rfl] at h
          simp at h; exact h.symm
        · simp only [if_neg hb] at h
          rcases List.mem_cons.mp hp with rfl | hmem
          · rw [tool_part_fails, hs] at hf
            simp at hf
            exact absurd (by simp [hf]) hb
          · exact ih _ _ ⟨p, hmem, hf⟩ h

/-- C6.  On the tool-call path, whenever any search invocation of the
model response reports no results (single-place search returns its error
dict, or multi-place search returns an empty list), the handler returns
the fixed place-not-found reply — `hasAction = false`, empty `actions` —
discarding every action produced by invocations processed earlier. -/
theorem c6_search_not_found_short_circuit (g : PlacesOracle) (geo : GeoOracle)
    (rjp : String → Json) (pj : String → Option Json) (ctx : PlanContext)
    (parts : List ToolPart) (rawText : String) (resp : ChatBotActionResponse)
    (h : handle_java_chatbot_request g geo rjp pj ctx parts rawText = .ok resp)
    (hf : ∃ p ∈ parts, tool_part_fails g geo ctx p) :
    resp = place_not_found_response := by
  unfold handle_java_chatbot_request at h
  rcases ht : tool_loop g geo ctx parts [] with e | out
  · rw [ht] at h; simp at h
  · have hout := tool_loop_fails g geo ctx parts [] out hf ht
    subst hout
    rw [ht] at h
    simp at h
    exact h.symm

/-- Witness for C6: one single-place invocation against an oracle that
finds nothing — the invocation fails and the handler's reply is the fixed
place-not-found response. -/
theorem c6_witness :
    tool_part_fails oracle_none oracle_geo_none empty_ctx (ToolPart.single "경복궁" 1 90)
    ∧ place_not_found_response = place_not_found_response :=
  ⟨rfl,
   c6_search_not_found_short_circuit oracle_none oracle_geo_none rjp_id pj_none
     empty_ctx [ToolPart.single "경복궁" 1 90] "" place_not_found_response rfl
     ⟨ToolPart.single "경복궁" 1 90, List.Mem.head _, rfl⟩⟩

/-! ### The free-slot search (C9). -/

/-- A context block with only scheduling-relevant fields populated. -/
def mk_ctx_block (ttid : Int) (s e : String) : CtxBlock :=
  { timeTableId := ttid
    date := JDate.null
    blockStartTime := JTime.str s
    blockEndTime := JTime.str e
    placeName := ""
    placeRating := 0
    placeAddress := ""
    placeLink := ""
    xLocation := none
    yLocation := none
    placeId := "" }

/-- "A gap of duration `dur` fits before the day-end bound": some start at
or after the day-start anchor whose slot ends by `DAY_END` and collides
with no used interval (half-open overlap rule). -/
def GapFits (used : List (Nat × Nat)) (dur : Nat) : Prop :=
  ∃ s : Nat, DAY_START ≤ s ∧ s + dur ≤ DAY_END ∧
    ∀ p ∈ used, ¬(s < p.2 ∧ p.1 < s + dur)

theorem mem_insert_interval (p q : Nat × Nat) :
    ∀ l : List (Nat × Nat), q ∈ insert_interval p l ↔ q = p ∨ q ∈ l := by
  intro l
  induction l with
  | nil => simp [insert_interval]
  | cons r rest ih =>
    by_cases h : r.1 ≤ p.1
    · simp [insert_interval, h, ih]
      tauto
    · simp [insert_interval, h]

theorem mem_sort_intervals (q : Nat × Nat) :
    ∀ l : List (Nat × Nat), q ∈ sort_intervals l ↔ q ∈ l := by
  intro l
  induction l with
  | nil => simp [sort_intervals]
  | cons r rest ih => simp [sort_intervals, mem_insert_interval, ih]

theorem pairwise_insert_interval (p : Nat × Nat) :
    ∀ l : List (Nat × Nat), l.Pairwise (fun a b => a.1 ≤ b.1) →
      (insert_interval p l).Pairwise (fun a b => a.1 ≤ b.1) := by
  intro l
  induction l with
  | nil => simp [insert_interval]
  | cons r rest ih =>
    intro hp
    rcases List.pairwise_cons.mp hp with ⟨hr, hrest⟩
    by_cases h : r.1 ≤ p.1
    · rw [insert_interval, if_pos h]
      refine List.pairwise_cons.mpr ⟨?_, ih hrest⟩
      intro x hx
      rcases (mem_insert_interval p x rest).mp hx with rfl | hx
      · exact h
      · exact hr x hx
    · rw [insert_interval, if_neg h]
      refine List.pairwise_cons.mpr ⟨?_, hp⟩
      intro x hx
      rcases List.mem_cons.mp hx with rfl | hx
      · omega
      · have := hr x hx
        omega

theorem sort_intervals_pairwise :
    ∀ l : List (Nat × Nat), (sort_intervals l).Pairwise (fun a b => a.1 ≤ b.1) := by
  intro l
  induction l with
  | nil => simp [sort_intervals]
  | cons r rest ih => exact pairwise_insert_interval r _ ih

/-- An early return of the scan: the slot starts at or after the incoming
candidate, ends before the start of some used interval, and collides with
no used interval. -/
theorem scan_slot_inl (dur : Nat) :
    ∀ (l : List (Nat × Nat)) (c s : Nat),
      l.Pairwise (fun a b => a.1 ≤ b.1) →
      scan_slot dur l c = .inl s →
      c ≤ s ∧ (∃ p ∈ l, s + dur ≤ p.1) ∧ ∀ p ∈ l, ¬(s < p.2 ∧ p.1 < s + dur) := by
  intro l
  induction l with
  | nil => intro c s _ h; simp [scan_slot] at h
  | cons u rest ih =>
    intro c s hp h
    rcases List.pairwise_cons.mp hp with ⟨hu, hrest⟩
    rcases u with ⟨us, ue⟩
    rw [scan_slot] at h
    by_cases hc : c + dur ≤ us
    · rw [if_pos hc] at h
      have hs : s = c := by simpa using h.symm
      subst hs
      refine ⟨le_refl s, ⟨(us, ue), List.Mem.head _, hc⟩, ?_⟩
      intro p hmem
      rcases List.mem_cons.mp hmem with rfl | hmem
      · omega
      · have := hu p hmem
        omega
    · rw [if_neg hc] at h
      obtain ⟨h1, h2, h3⟩ := ih (if c < ue then ue else c) s hrest h
      have hcc : c ≤ if c < ue then ue else c := by split <;> omega
      have hue : ue ≤ if c < ue then ue else c := by split <;> omega
      refine ⟨le_trans hcc h1, ?_, ?_⟩
      · obtain ⟨p, hmem, hpd⟩ := h2
        exact ⟨p, List.Mem.tail _ hmem, hpd⟩
      · intro p hmem
        rcases List.mem_cons.mp hmem with rfl | hmem
        · have : ue ≤ s := le_trans hue h1
          omega
        · exact h3 p hmem

/-- The fall-through of the scan: the final candidate is at or after the
incoming one and at or after the end of every used interval. -/
theorem scan_slot_inr (dur : Nat) :
    ∀ (l : List (Nat × Nat)) (c c' : Nat),
      scan_slot dur l c = .inr c' →
      c ≤ c' ∧ ∀ p ∈ l, p.2 ≤ c' := by
  intro l
  induction l with
  | nil =>
    intro c c' h
    have hcc : c = c' := by simpa [scan_slot] using h
    subst hcc
    exact ⟨le_refl c, by simp⟩
  | cons u rest ih =>
    intro c c' h
    rcases u with ⟨us, ue⟩
    rw [scan_slot] at h
    by_cases hc : c + dur ≤ us
    · rw [if_pos hc] at h; simp at h
    · rw [if_neg hc] at h
      obtain ⟨h1, h2⟩ := ih (if c < ue then ue else c) c' h
      have hcc : c ≤ if c < ue then ue else c := by split <;> omega
      have hue : ue ≤ if c < ue then ue else c := by split <;> omega
      refine ⟨le_trans hcc h1, ?_⟩
      intro p hmem
      rcases List.mem_cons.mp hmem with rfl | hmem
      · exact le_trans hue h1
      · exact h2 p hmem

/-- C9 counterexample.  Existing intervals 09:00–19:30 and 21:30–22:00 on
timetable 1, duration 90 minutes: no 90-minute gap fits before the 20:00
day-end bound, yet the function returns (19:30, 21:00) — a slot ending
*after* the bound — instead of the fixed fallback (19:00, 20:30), because
the early-return path never checks the day-end bound. -/
theorem c9_counterexample :
    used_intervals [mk_ctx_block 1 "09:00:00" "19:30:00",
                    mk_ctx_block 1 "21:30:00" "22:00:00"] 1
        = .ok [(32400, 70200), (77400, 79200)]
    ∧ find_non_overlapping_time
        [mk_ctx_block 1 "09:00:00" "19:30:00", mk_ctx_block 1 "21:30:00" "22:00:00"] 1 90
        = .ok ("19:30:00", "21:00:00")
    ∧ ("19:30:00", "21:00:00") ≠ ("19:00:00", "20:30:00")
    ∧ ¬ GapFits [(32400, 70200), (77400, 79200)] (90 * 60) := by
  refine ⟨rfl, rfl, by decide, ?_⟩
  rintro ⟨s, hs1, hs2, hall⟩
  have h1 := hall (32400, 70200) (List.Mem.head _)
  simp [DAY_START, DAY_END] at hs1 hs2 h1
  omega

/-- C9 (amended).  The example holds: with the single existing interval
09:00–10:30 and a 90-minute request the function returns (10:30, 12:00).
The fallback half holds under the additional well-formedness condition
the claim omits: if every existing interval of the timetable is
well-formed (start ≤ end) *and ends by the 20:00 day-end bound*, then
whenever no 90·60-second gap fits before the bound the fixed fallback
(19:00, 20:30) is returned.  (Without the extra condition the
early-return path can emit a slot ending past the bound, as the
counterexample shows.) -/
theorem c9_free_slot :
    find_non_overlapping_time [mk_ctx_block 1 "09:00:00" "10:30:00"] 1 90
        = .ok ("10:30:00", "12:00:00")
    ∧ ∀ (blocks : List CtxBlock) (ttid : Int) (durMin : Nat) (used : List (Nat × Nat)),
        used_intervals blocks ttid = .ok used →
        (∀ p ∈ used, p.1 ≤ p.2 ∧ p.2 ≤ DAY_END) →
        ¬ GapFits used (durMin * 60) →
        find_non_overlapping_time blocks ttid durMin = .ok ("19:00:00", "20:30:00") := by
  refine ⟨rfl, ?_⟩
  intro blocks ttid durMin used hused hwf hng
  unfold find_non_overlapping_time
  rw [hused]
  dsimp only
  rcases hscan : scan_slot (durMin * 60) (sort_intervals used) DAY_START with s | c
  · exfalso
    obtain ⟨h1, ⟨p, hpmem, hpd⟩, h3⟩ :=
      scan_slot_inl (durMin * 60) (sort_intervals used) DAY_START s
        (sort_intervals_pairwise used) hscan
    have hpu : p ∈ used := (mem_sort_intervals p used).mp hpmem
    have hpwf := hwf p hpu
    refine hng ⟨s, h1, by omega, ?_⟩
    intro q hq
    exact h3 q ((mem_sort_intervals q used).mpr hq)
  · obtain ⟨h1, h2⟩ := scan_slot_inr (durMin * 60) (sort_intervals used) DAY_START c hscan
    have hcd : ¬ (c + durMin * 60 ≤ DAY_END) := by
      intro hle
      refine hng ⟨c, h1, hle, ?_⟩
      intro q hq
      have := h2 q ((mem_sort_intervals q used).mpr hq)
      omega
    dsimp only
    rw [if_neg hcd]

/-- Witness for C9 (amended): a single well-formed interval 09:00–19:30
leaves no 90-minute gap before 20:00, and the fallback is returned. -/
theorem c9_witness :
    find_non_overlapping_time [mk_ctx_block 1 "09:00:00" "19:30:00"] 1 90
      = .ok ("19:00:00", "20:30:00") :=
  c9_free_slot.2 [mk_ctx_block 1 "09:00:00" "19:30:00"] 1 90 [(32400, 70200)] rfl
    (by intro p hp; simp at hp; simp [hp, DAY_END])
    (by
      rintro ⟨s, hs1, hs2, hall⟩
      have h1 := hall (32400, 70200) (List.Mem.head _)
      simp [DAY_START, DAY_END] at hs1 hs2 h1
      omega)

/-! ### Multi-place search (C10). -/

/-- The half-open overlap rule on parsed second-of-day intervals:
`s1 < e2 ∧ s2 < e1`. -/
def overlap_sec (a b : Nat × Nat) : Bool :=
  decide (a.1 < b.2 ∧ b.1 < a.2)

/-- No two intervals of the list overlap. -/
def pairwise_disjoint : List (Nat × Nat) → Bool
  | [] => true
  | p :: rest => rest.all (fun q => !overlap_sec p q) && pairwise_disjoint rest

/-- The parsed `(start, end)` intervals of a block list (blocks whose
stored times fail to parse are skipped; in the verified runs they all
parse). -/
def intervals_of (bs : List TPBlock) : List (Nat × Nat) :=
  bs.filterMap (fun b =>
    match parse_time (JTime.str b.blockStartTime), parse_time (JTime.str b.blockEndTime) with
    | .ok s, .ok e => some (s, e)
    | _, _ => none)

theorem digitVal_digitChar : ∀ d : Nat, d < 10 → digitVal (digitChar d) = some d := by
  decide

theorem parseHMS_format (h m s : Nat) (hh : h < 24) (hm : m < 60) (hs : s < 60) :
    parseHMS (String.mk [digitChar (h / 10), digitChar (h % 10), ':',
        digitChar (m / 10), digitChar (m % 10), ':',
        digitChar (s / 10), digitChar (s % 10)])
      = some (3600 * h + 60 * m + s) := by
  have d1 := digitVal_digitChar (h / 10) (by omega)
  have d2 := digitVal_digitChar (h % 10) (by omega)
  have d3 := digitVal_digitChar (m / 10) (by omega)
  have d4 := digitVal_digitChar (m % 10) (by omega)
  have d5 := digitVal_digitChar (s / 10) (by omega)
  have d6 := digitVal_digitChar (s % 10) (by omega)
  have hdata : (String.mk [digitChar (h / 10), digitChar (h % 10), ':',
      digitChar (m / 10), digitChar (m % 10), ':',
      digitChar (s / 10), digitChar (s % 10)]).data
      = [digitChar (h / 10), digitChar (h % 10), ':',
         digitChar (m / 10), digitChar (m % 10), ':',
         digitChar (s / 10), digitChar (s % 10)] := rfl
  simp only [parseHMS, hdata, d1, d2, d3, d4, d5, d6]
  rw [if_pos (by omega)]
  congr 1
  omega

/-- Parsing a `_format_time` output recovers the time-of-day. -/
theorem parse_format_time (x : Nat) :
    parse_time (JTime.str (formatTime x)) = .ok (x % 86400) := by
  have hstep : formatTime x
      = String.mk [digitChar (x % 86400 / 3600 / 10), digitChar (x % 86400 / 3600 % 10), ':',
          digitChar (x % 86400 % 3600 / 60 / 10), digitChar (x % 86400 % 3600 / 60 % 10), ':',
          digitChar (x % 86400 % 60 / 10), digitChar (x % 86400 % 60 % 10)] := rfl
  have hne : String.mk [digitChar (x % 86400 / 3600 / 10), digitChar (x % 86400 / 3600 % 10), ':',
      digitChar (x % 86400 % 3600 / 60 / 10), digitChar (x % 86400 % 3600 / 60 % 10), ':',
      digitChar (x % 86400 % 60 / 10), digitChar (x % 86400 % 60 % 10)] ≠ "" := by
    intro hcon
    have := congrArg String.data hcon
    simp at this
  have hparse := parseHMS_format (x % 86400 / 3600) (x % 86400 % 3600 / 60) (x % 86400 % 60)
    (by omega) (by omega) (by omega)
  rw [hstep]
  simp only [parse_time, if_neg hne, hparse]
  congr 1
  generalize x % 86400 = t
  have e3 : t % 3600 % 60 = t % 60 := Nat.mod_mod_of_dvd _ (by norm_num)
  rw [← e3, Nat.add_assoc, Nat.div_add_mod, Nat.div_add_mod]

/-- Per-block and chaining invariants of the multi-search loop: every
emitted block carries the requested `timeTableId`, stores
`formatTime`-rendered times one duration apart whose wall-clock end is at
most `DAY_END`, consecutive blocks are back-to-back, and the first block
starts at the incoming candidate time. -/
theorem multi_loop_props (g : PlacesOracle) (loc : Option String) (ttid : Int) (dur : Nat) :
    ∀ (qs : List String) (counts : String → Nat) (current : Nat),
      (∀ b ∈ multi_loop g loc ttid dur qs counts current,
          b.timeTableId = ttid
          ∧ ∃ s : Nat, b.blockStartTime = formatTime s
              ∧ b.blockEndTime = formatTime (s + dur)
              ∧ (s + dur) % 86400 ≤ DAY_END)
      ∧ List.Chain' (fun a b => b.blockStartTime = a.blockEndTime)
          (multi_loop g loc ttid dur qs counts current)
      ∧ (∀ b, (multi_loop g loc ttid dur qs counts current).head? = some b →
          b.blockStartTime = formatTime current) := by
  intro qs
  induction qs with
  | nil => intro counts current; simp [multi_loop]
  | cons q rest ih =>
    intro counts current
    rw [multi_loop]
    rcases g q loc (counts q) with _ | place
    · exact ih _ current
    · by_cases hend : (current + dur) % 86400 > DAY_END
      · simp only [if_pos hend]
        simp
      · simp only [if_neg hend]
        obtain ⟨ihmem, ihchain, ihhead⟩ := ih (fun q' => if q' = q then counts q + 1 else counts q') (current + dur)
        refine ⟨?_, ?_, ?_⟩
        · intro b hb
          rcases List.mem_cons.mp hb with rfl | hb
          · exact ⟨rfl, current, rfl, rfl, by omega⟩
          · exact ihmem b hb
        · refine List.chain'_cons'.mpr ⟨?_, ihchain⟩
          intro c hc
          exact ihhead c hc
        · intro b hb
          simp at hb
          rw [← hb]

/-- If consecutive intervals are back-to-back and every interval is
well-formed (`start ≤ end`), every later interval starts at or after the
end of the first one. -/
theorem chain_first_le (p : Nat × Nat) :
    ∀ l : List (Nat × Nat),
      List.Chain' (fun a b => b.1 = a.2) (p :: l) →
      (∀ q ∈ p :: l, q.1 ≤ q.2) →
      ∀ q ∈ l, p.2 ≤ q.1 := by
  intro l
  induction l generalizing p with
  | nil => simp
  | cons r rest ih =>
    intro hch hwf q hq
    have hr : r.1 = p.2 := (List.chain'_cons.mp hch).1
    rcases List.mem_cons.mp hq with rfl | hq
    · omega
    · have hrec := ih r (List.chain'_cons.mp hch).2
        (fun x hx => hwf x (List.mem_cons.mpr (Or.inr hx))) q hq
      have hwr : r.1 ≤ r.2 := hwf r (by simp)
      omega

/-- Back-to-back well-formed intervals are pairwise disjoint under the
half-open overlap rule. -/
theorem chain_disjoint :
    ∀ l : List (Nat × Nat),
      List.Chain' (fun a b => b.1 = a.2) l →
      (∀ p ∈ l, p.1 ≤ p.2) →
      pairwise_disjoint l = true := by
  intro l
  induction l with
  | nil => intro _ _; rfl
  | cons p rest ih =>
    intro hch hwf
    rw [pairwise_disjoint]
    refine (Bool.and_eq_true _ _).mpr ⟨?_, ?_⟩
    · rw [List.all_eq_true]
      intro q hq
      have := chain_first_le p rest hch hwf q hq
      simp [overlap_sec]
      omega
    · exact ih ((List.chain'_cons'.mp hch).2) (fun x hx => hwf x (List.mem_cons.mpr (Or.inr hx)))

/-- When every block of a string-level back-to-back list parses, the
parsed interval list is back-to-back as well. -/
theorem intervals_of_chain :
    ∀ bs : List TPBlock,
      List.Chain' (fun a b => b.blockStartTime = a.blockEndTime) bs →
      (∀ b ∈ bs, ∃ s e : Nat, parse_time (JTime.str b.blockStartTime) = .ok s
        ∧ parse_time (JTime.str b.blockEndTime) = .ok e) →
      List.Chain' (fun p q : Nat × Nat => q.1 = p.2) (intervals_of bs) := by
  intro bs
  induction bs with
  | nil => intro _ _; simp [intervals_of]
  | cons b rest ih =>
    intro hch hparse
    obtain ⟨s, e, hs, he⟩ := hparse b (by simp)
    have hbase : intervals_of (b :: rest) = (s, e) :: intervals_of rest := by
      simp [intervals_of, hs, he]
    rw [hbase]
    refine List.chain'_cons'.mpr ⟨?_, ih (List.chain'_cons'.mp hch).2
      (fun x hx => hparse x (List.mem_cons.mpr (Or.inr hx)))⟩
    intro q hq
    rcases rest with _ | ⟨b', rest'⟩
    · simp [intervals_of] at hq
    · obtain ⟨s', e', hs', he'⟩ := hparse b' (by simp)
      have hq' : q = (s', e') := by
        simp [intervals_of, hs', he'] at hq
        exact hq.symm
      have hbb : b'.blockStartTime = b.blockEndTime :=
        (List.chain'_cons'.mp hch).1 b' rfl
      rw [hbb] at hs'
      subst hq'
      have hse : (Except.ok s' : Except String Nat) = Except.ok e := hs'.symm.trans he
      simpa using hse

/-- Membership in the parsed-interval list comes from a block. -/
theorem intervals_of_mem {bs : List TPBlock} {p : Nat × Nat}
    (hp : p ∈ intervals_of bs) :
    ∃ b ∈ bs, parse_time (JTime.str b.blockStartTime) = .ok p.1
      ∧ parse_time (JTime.str b.blockEndTime) = .ok p.2 := by
  unfold intervals_of at hp
  obtain ⟨b, hb, hmatch⟩ := List.mem_filterMap.mp hp
  refine ⟨b, hb, ?_⟩
  rcases hs : parse_time (JTime.str b.blockStartTime) with _ | s <;>
    rcases he : parse_time (JTime.str b.blockEndTime) with _ | e <;>
      rw [hs, he] at hmatch <;> simp at hmatch
  have h1 : p.1 = s := by rw [← hmatch]
  have h2 : p.2 = e := by rw [← hmatch]
  rw [h1, h2]
  exact ⟨rfl, rfl⟩


/-- A places oracle that always succeeds, naming each place after its
query. -/
def place_named (q : String) : Place :=
  { placeName := q, placeRating := 0, placeAddress := "", placeLink := "",
    xLocation := none, yLocation := none, placeId := "" }

def oracle_by_query : PlacesOracle := fun q _ _ => some (place_named q)

/-- C10 counterexample.  Four successful queries at 480 minutes each on an
empty plan: the schedule wraps past midnight, block 2 runs 17:00→01:00
(stored end before stored start, so it does not carry the requested
duration as an interval), and blocks 1 and 4 are the *identical* interval
09:00–17:00 — the returned blocks are not pairwise non-overlapping. -/
theorem c10_counterexample :
    (match search_multiple_place_blocks oracle_by_query oracle_geo_none
        ["a", "b", "c", "d"] 7 empty_ctx 480 with
      | .ok bs => bs.map (fun b => (b.blockStartTime, b.blockEndTime))
      | .error _ => [])
      = [("09:00:00", "17:00:00"), ("17:00:00", "01:00:00"),
         ("01:00:00", "09:00:00"), ("09:00:00", "17:00:00")]
    ∧ pairwise_disjoint (intervals_of
        (match search_multiple_place_blocks oracle_by_query oracle_geo_none
            ["a", "b", "c", "d"] 7 empty_ctx 480 with
          | .ok bs => bs
          | .error _ => [])) = false := by
  exact ⟨rfl, rfl⟩

/-- C10 (amended).  For every successful call of
`search_multiple_place_blocks`: all returned blocks carry the given
`timeTableId`; each block after the first starts exactly where the
previous block ends; every block's stored wall-clock end is its stored
start plus the requested duration *modulo 24 hours* and lies at or before
20:00:00; and the blocks are pairwise non-overlapping provided no block
wraps past midnight (every parsed start ≤ parsed end) — without that
proviso the wrap can duplicate intervals, as the counterexample shows. -/
theorem c10_multi_block_properties (g : PlacesOracle) (geo : GeoOracle)
    (queries : List String) (ttid : Int) (ctx : PlanContext) (durMin : Nat)
    (bs : List TPBlock)
    (h : search_multiple_place_blocks g geo queries ttid ctx durMin = .ok bs) :
    (∀ b ∈ bs, b.timeTableId = ttid)
    ∧ List.Chain' (fun a b => b.blockStartTime = a.blockEndTime) bs
    ∧ (∀ b ∈ bs, ∃ s e : Nat,
        parse_time (JTime.str b.blockStartTime) = .ok s
        ∧ parse_time (JTime.str b.blockEndTime) = .ok e
        ∧ e = (s + durMin * 60) % 86400
        ∧ e ≤ DAY_END)
    ∧ ((∀ b ∈ bs, ∀ s e : Nat,
          parse_time (JTime.str b.blockStartTime) = .ok s →
          parse_time (JTime.str b.blockEndTime) = .ok e → s ≤ e) →
        pairwise_disjoint (intervals_of bs) = true) := by
  unfold search_multiple_place_blocks at h
  dsimp only at h
  rcases hf : find_non_overlapping_time (parse_blocks_from_plan ctx) ttid durMin
    with e | ⟨firstStart, u⟩
  · rw [hf] at h; simp at h
  · rw [hf] at h
    dsimp only at h
    rcases hp : parse_time (JTime.str firstStart) with e | start0
    · rw [hp] at h; simp at h
    · rw [hp] at h
      simp only [Except.ok.injEq] at h
      subst h
      obtain ⟨hmem, hchain, _⟩ :=
        multi_loop_props g (get_location_from_plan geo ctx ttid) ttid (durMin * 60)
          queries (fun _ => 0) start0
      have hparsed : ∀ b ∈ multi_loop g (get_location_from_plan geo ctx ttid) ttid
          (durMin * 60) queries (fun _ => 0) start0,
          ∃ s e : Nat, parse_time (JTime.str b.blockStartTime) = .ok s
            ∧ parse_time (JTime.str b.blockEndTime) = .ok e
            ∧ e = (s + durMin * 60) % 86400
            ∧ e ≤ DAY_END := by
        intro b hb
        obtain ⟨_, s0, hbs, hbe, hle⟩ := hmem b hb
        refine ⟨s0 % 86400, (s0 + durMin * 60) % 86400, ?_, ?_, by omega, hle⟩
        · rw [hbs]; exact parse_format_time s0
        · rw [hbe]; exact parse_format_time (s0 + durMin * 60)
      refine ⟨fun b hb => (hmem b hb).1, hchain, hparsed, ?_⟩
      intro hwfb
      refine chain_disjoint _ ?_ ?_
      · exact intervals_of_chain _ hchain
          (fun b hb => by
            obtain ⟨s, e, hs, he, _, _⟩ := hparsed b hb
            exact ⟨s, e, hs, he⟩)
      · intro p hp
        obtain ⟨b, hb, hs, he⟩ := intervals_of_mem hp
        exact hwfb b hb p.1 p.2 hs he

/-- The single block of the C10 witness run: query "a", timetable 7,
90 minutes on an empty plan. -/
def c10_block : TPBlock :=
  { blockId := -1, placeName := "a", placeTheme := "", placeRating := 0,
    placeAddress := "", placeLink := "", blockStartTime := "09:00:00",
    blockEndTime := "10:30:00", xLocation := none, yLocation := none,
    placeId := "", placeCategoryId := 0, timeTableId := 7, date := none }

/-- Witness for C10 (amended): one successful 90-minute query on an empty
plan — the single block carries timetable 7, times 09:00–10:30, and the
disjointness conclusion applies. -/
theorem c10_witness :
    (∀ b ∈ [c10_block], b.timeTableId = 7)
    ∧ List.Chain' (fun a b => b.blockStartTime = a.blockEndTime) [c10_block]
    ∧ (∀ b ∈ [c10_block], ∃ s e : Nat,
        parse_time (JTime.str b.blockStartTime) = .ok s
        ∧ parse_time (JTime.str b.blockEndTime) = .ok e
        ∧ e = (s + 90 * 60) % 86400
        ∧ e ≤ DAY_END)
    ∧ ((∀ b ∈ [c10_block], ∀ s e : Nat,
          parse_time (JTime.str b.blockStartTime) = .ok s →
          parse_time (JTime.str b.blockEndTime) = .ok e → s ≤ e) →
        pairwise_disjoint (intervals_of [c10_block]) = true) :=
  c10_multi_block_properties oracle_by_query oracle_geo_none ["a"] 7 empty_ctx 90
    [c10_block] rfl

/-! ### Auto-scheduler placeholder identifiers (C4). -/

theorem create_place_block_ttid {g : PlacesOracle} {q s e d : String} {tid : Int}
    {loc : Option String} {i : Nat} {b : TPBlock}
    (h : create_place_block g q s e d tid loc i = some b) :
    b.timeTableId = tid ∧ b.date = some d := by
  unfold create_place_block at h
  rcases hg : g q loc i with _ | p <;> rw [hg] at h
  · simp at h
  · simp at h
    rw [← h]
    exact ⟨rfl, rfl⟩

theorem opt_to_list_mem {o : Option TPBlock} {b : TPBlock}
    (h : b ∈ opt_to_list o) : o = some b := by
  cases o with
  | none => simp [opt_to_list] at h
  | some a =>
    simp [opt_to_list] at h
    rw [h]

theorem try_slot_cases {ex : List CtxBlock} {s e : String} {mk : Unit → List TPBlock}
    {l : List TPBlock} (h : try_slot ex s e mk = .ok l) : l = [] ∨ l = mk () := by
  unfold try_slot at h
  rcases hc : has_time_conflict ex s e with er | c <;> rw [hc] at h
  · simp at h
  · cases c <;> simp at h <;>
      first
        | exact Or.inl h
        | exact Or.inl h.symm
        | exact Or.inr h
        | exact Or.inr h.symm

/-- Every block of the lodging slot carries the placeholder id and the
slot's date. -/
theorem lodging_slot_ttid {existing : List CtxBlock} {dateStr : String} {tid : Int}
    {last : Bool} {acc : Option Place} {l : List TPBlock}
    (h : lodging_slot existing dateStr tid last acc = .ok l) :
    ∀ b ∈ l, b.timeTableId = tid ∧ b.date = some dateStr := by
  intro b hb
  cases last <;> cases acc <;> simp [lodging_slot] at h
  case false.some accP =>
    rcases try_slot_cases h with rfl | hrw
    · simp at hb
    · rw [hrw] at hb
      simp at hb
      rw [hb]
      exact ⟨rfl, rfl⟩
  all_goals (rw [h] at hb; simp at hb)

/-- Every block emitted by `create_daily_schedule` carries the placeholder
`tempTimeTableId` it was called with and the date it was called for. -/
theorem create_daily_schedule_ttid {g : PlacesOracle} {n : Nat} {dateStr : String}
    {tid : Int} {dest : String} {last : Bool} {loc : Option String}
    {acc : Option Place} {ctx : PlanContext} {bls : List TPBlock}
    (h : create_daily_schedule g n dateStr tid dest last loc acc ctx = .ok bls) :
    ∀ b ∈ bls, b.timeTableId = tid ∧ b.date = some dateStr := by
  unfold create_daily_schedule at h
  rcases he : get_existing_blocks_for_date ctx dateStr with e0 | existing <;>
    rw [he] at h <;> dsimp only at h
  · simp at h
  · rcases hm : try_slot existing "09:00:00" "11:00:00"
        (fun _ => opt_to_list (create_place_block g (dest ++ " 관광지") "09:00:00" "11:00:00"
          dateStr tid loc (n - 1))) with e1 | morning <;> rw [hm] at h <;> dsimp only at h
    · simp at h
    · rcases hl : try_slot existing "12:00:00" "14:00:00"
          (fun _ => opt_to_list (create_place_block g (dest ++ " 맛집") "12:00:00" "14:00:00"
            dateStr tid loc (n - 1))) with e2 | lunch <;> rw [hl] at h <;> dsimp only at h
      · simp at h
      · rcases hdn : try_slot existing "18:00:00" "20:00:00"
            (fun _ => opt_to_list (create_place_block g
              (if n % 2 = 0 then dest ++ " 회 맛집" else dest ++ " 고기 맛집")
              "18:00:00" "20:00:00" dateStr tid loc (n - 1))) with e3 | dinner <;>
          rw [hdn] at h <;> dsimp only at h
        · simp at h
        · rcases hlg : lodging_slot existing dateStr tid last acc
              with e4 | lodging <;> rw [hlg] at h <;> dsimp only at h
          · simp at h
          · simp only [Except.ok.injEq] at h
            subst h
            intro b hb
            rcases List.mem_append.mp hb with hb | hb
            · rcases List.mem_append.mp hb with hb | hb
              · rcases List.mem_append.mp hb with hb | hb
                · rcases try_slot_cases hm with rfl | hrw
                  · simp at hb
                  · rw [hrw] at hb
                    exact create_place_block_ttid (opt_to_list_mem hb)
                · rcases try_slot_cases hl with rfl | hrw
                  · simp at hb
                  · rw [hrw] at hb
                    exact create_place_block_ttid (opt_to_list_mem hb)
              · rcases try_slot_cases hdn with rfl | hrw
                · simp at hb
                · rw [hrw] at hb
                  exact create_place_block_ttid (opt_to_list_mem hb)
            · exact lodging_slot_ttid hlg b hb

/-- Shape of the day loop: one TimeTable-create action per requested day
(with consecutive dates), and every emitted block referencing the
placeholder id `-(day + 1)` of its day. -/
theorem auto_days_loop_shape (g : PlacesOracle) (ctx : PlanContext) (dest : String)
    (loc : Option String) (acc : Option Place) (startD : PDate) :
    ∀ (rem dayIdx : Nat) (tts : List TTAction) (bls : List TPBlock),
      auto_days_loop g ctx dest loc acc startD dayIdx rem = .ok (tts, bls) →
      tts = (List.range rem).map (fun k =>
          { action := "create", targetName := "timeTable",
            targetDate := format_date (addDays startD (dayIdx + k)) })
      ∧ ∀ b ∈ bls, ∃ k, k < rem ∧ b.timeTableId = -(Int.ofNat (dayIdx + k) + 1)
          ∧ b.date = some (format_date (addDays startD (dayIdx + k))) := by
  intro rem
  induction rem with
  | zero =>
    intro dayIdx tts bls h
    simp [auto_days_loop] at h
    simp [h.1, h.2]
  | succ rem ih =>
    intro dayIdx tts bls h
    simp only [auto_days_loop] at h
    rcases hday : create_daily_schedule g (dayIdx + 1) (format_date (addDays startD dayIdx))
        (-(Int.ofNat dayIdx + 1)) dest (rem == 0) loc acc ctx with e | dayBlocks <;>
      rw [hday] at h <;> dsimp only at h
    · simp at h
    · rcases hrec : auto_days_loop g ctx dest loc acc startD (dayIdx + 1) rem
        with e | ⟨tts2, bls2⟩ <;> rw [hrec] at h <;> dsimp only at h
      · simp at h
      · simp only [Except.ok.injEq, Prod.mk.injEq] at h
        obtain ⟨h1, h2⟩ := h
        subst h1
        subst h2
        obtain ⟨htts2, hbls2⟩ := ih (dayIdx + 1) tts2 bls2 hrec
        constructor
        · rw [List.range_succ_eq_map, List.map_cons, htts2, List.map_map]
          congr 1
          apply List.map_congr_left
          intro k _
          simp only [Function.comp]
          have hk : dayIdx + 1 + k = dayIdx + (k + 1) := by omega
          rw [hk]
        · intro b hb
          rcases List.mem_append.mp hb with hb | hb
          · obtain ⟨htid, hdate⟩ := create_daily_schedule_ttid hday b hb
            exact ⟨0, by omega, htid, hdate⟩
          · obtain ⟨k, hk, htid, hdate⟩ := hbls2 b hb
            have hkk : dayIdx + 1 + k = dayIdx + (k + 1) := by omega
            refine ⟨k + 1, by omega, ?_, ?_⟩
            · rw [htid, hkk]
            · rw [hdate, hkk]

/-- The plan context of the C4 scenario: a TimeTable with the real
identifier 5 already exists for 2025-01-01. -/
def ctx_with_tt : PlanContext :=
  { TravelName := none
    TimeTables := [{ timeTableId := 5, date := "2025-01-01" }]
    TimeTablePlaceBlocks := [] }

/-- C4 counterexample.  A one-day itinerary for 2025-01-01 when the plan
context already holds a TimeTable with id 5 for that very date: the
scheduler still emits a TimeTable-create action for 2025-01-01, and every
emitted PlaceBlock carries the placeholder id −1, not the existing real
identifier 5 — `create_auto_schedule` never reads `planContext.TimeTables`. -/
theorem c4_counterexample :
    (match create_auto_schedule oracle_by_query 1 "2025-01-01" ctx_with_tt "서울" with
      | .ok r => (r.timeTables.map (fun a => (a.action, a.targetName, a.targetDate)),
                  r.placeBlocks.map (fun b => b.timeTableId))
      | .error _ => ([], []))
      = ([("create", "timeTable", "2025-01-01")], [-1, -1, -1])
    ∧ ctx_with_tt.TimeTables = [{ timeTableId := 5, date := "2025-01-01" }]
    ∧ (5 : Int) ≠ -1 := by
  exact ⟨rfl, rfl, by decide⟩

/-- C4 (amended).  The Auto-Scheduler ignores existing TimeTables: for
every successful run it emits one TimeTable-create action for *every*
requested date — whether or not the plan context already holds a
TimeTable for that date — and every emitted PlaceBlock references the
negative placeholder id `-(dayIndex + 1)` *of its own day*: the block's
`date` field is exactly the day's date `startD + dayIndex`, tying the
placeholder to the day the block belongs to (never an existing real
identifier); reconciliation is left entirely to the caller. -/
theorem c4_placeholder_ids (g : PlacesOracle) (days : Nat) (startDate : String)
    (ctx : PlanContext) (dest : String) (startD : PDate) (r : ScheduleResult)
    (hd : parse_date startDate = .ok startD)
    (h : create_auto_schedule g days startDate ctx dest = .ok r) :
    r.timeTables = (List.range days).map (fun k =>
        { action := "create", targetName := "timeTable",
          targetDate := format_date (addDays startD k) })
    ∧ ∀ b ∈ r.placeBlocks, ∃ k, k < days ∧ b.timeTableId = -(Int.ofNat k + 1)
        ∧ b.date = some (format_date (addDays startD k)) := by
  unfold create_auto_schedule at h
  rw [hd] at h
  dsimp only at h
  rcases hacc : accommodation_step g days startD ctx dest with e | accommodation <;>
    rw [hacc] at h <;> dsimp only at h
  · simp at h
  · rcases hloop : auto_days_loop g ctx dest ctx.TravelName accommodation startD 0 days
      with e | ⟨tts, bls⟩ <;> rw [hloop] at h <;> dsimp only at h
    · simp at h
    · simp only [Except.ok.injEq] at h
      subst h
      obtain ⟨h1, h2⟩ := auto_days_loop_shape g ctx dest ctx.TravelName accommodation
        startD days 0 tts bls hloop
      constructor
      · simpa using h1
      · intro b hb
        obtain ⟨k, hk, htid, hdate⟩ := h2 b hb
        exact ⟨k, hk, by simpa using htid, by simpa using hdate⟩

/-- The concrete result of the C4 witness run (one day, all searches
succeed, destination 서울). -/
def c4_run_result : ScheduleResult where
  timeTables :=
    [{ action := "create", targetName := "timeTable", targetDate := "2025-01-01" }]
  placeBlocks :=
    [{ blockId := -1, placeName := "서울 관광지", placeTheme := "", placeRating := 0,
       placeAddress := "", placeLink := "", blockStartTime := "09:00:00",
       blockEndTime := "11:00:00", xLocation := none, yLocation := none,
       placeId := "", placeCategoryId := 0, timeTableId := -1,
       date := some "2025-01-01" },
     { blockId := -1, placeName := "서울 맛집", placeTheme := "", placeRating := 0,
       placeAddress := "", placeLink := "", blockStartTime := "12:00:00",
       blockEndTime := "14:00:00", xLocation := none, yLocation := none,
       placeId := "", placeCategoryId := 2, timeTableId := -1,
       date := some "2025-01-01" },
     { blockId := -1, placeName := "서울 고기 맛집", placeTheme := "", placeRating := 0,
       placeAddress := "", placeLink := "", blockStartTime := "18:00:00",
       blockEndTime := "20:00:00", xLocation := none, yLocation := none,
       placeId := "", placeCategoryId := 2, timeTableId := -1,
       date := some "2025-01-01" }]

/-- Witness for C4 (amended) on the one-day run against `ctx_with_tt`. -/
theorem c4_witness :
    c4_run_result.timeTables = (List.range 1).map (fun k =>
        { action := "create", targetName := "timeTable",
          targetDate := format_date (addDays ⟨2025, 1, 1⟩ k) })
    ∧ ∀ b ∈ c4_run_result.placeBlocks, ∃ k, k < 1 ∧ b.timeTableId = -(Int.ofNat k + 1)
        ∧ b.date = some (format_date (addDays ⟨2025, 1, 1⟩ k)) :=
  c4_placeholder_ids oracle_by_query 1 "2025-01-01" ctx_with_tt "서울" ⟨2025, 1, 1⟩
    c4_run_result rfl rfl

/-! ### Three-day auto-schedule scenario (C3). -/

/-- C3.  A 3-day trip (destination 서울, start 2025-01-01) against an empty
existing plan, with every place search succeeding (the oracle is
`some ∘ pf` for an arbitrary place table `pf`) and search results carrying
the lodging's name only for the lodging query: the scheduler emits exactly
3 TimeTable-create actions (for the three consecutive dates) and exactly
11 PlaceBlock-create entries — 4 for day 1, 4 for day 2, 3 for day 3 (no
lodging slot on the final day) — and the lodging place's name appears in
exactly the two lodging blocks, which belong to days 1 and 2
(placeholder ids −1 and −2, not −3). -/
theorem c3_three_day_schedule (pf : String → Option String → Nat → Place)
    (hname : ∀ q i, (pf q none i).placeName = (pf "서울 호텔" none 0).placeName →
      q = "서울 호텔") :
    ∃ r, create_auto_schedule (fun q loc i => some (pf q loc i)) 3 "2025-01-01"
        empty_ctx "서울" = .ok r
      ∧ r.timeTables.map (fun a => (a.action, a.targetName, a.targetDate))
          = [("create", "timeTable", "2025-01-01"), ("create", "timeTable", "2025-01-02"),
             ("create", "timeTable", "2025-01-03")]
      ∧ r.placeBlocks.length = 11
      ∧ (r.placeBlocks.filter (fun b => b.timeTableId == -1)).length = 4
      ∧ (r.placeBlocks.filter (fun b => b.timeTableId == -2)).length = 4
      ∧ (r.placeBlocks.filter (fun b => b.timeTableId == -3)).length = 3
      ∧ (∀ b ∈ r.placeBlocks,
          (b.placeName = (pf "서울 호텔" none 0).placeName ↔ b.placeCategoryId = 1))
      ∧ (r.placeBlocks.filter (fun b => b.placeCategoryId == 1)).map
          (fun b => b.timeTableId) = [-1, -2] := by
  refine ⟨_, rfl, rfl, rfl, rfl, rfl, rfl, ?_, rfl⟩
  intro b hb
  simp [opt_to_list, create_place_block, create_place_block_from_data] at hb
  rcases hb with rfl | rfl | rfl | rfl | rfl | rfl | rfl | rfl | rfl | rfl | rfl <;>
    first
      | exact iff_of_true rfl rfl
      | (refine iff_of_false ?_ (by dsimp only; decide)
         intro hcon
         exact absurd (hname _ _ hcon) (by decide))

/-- Witness for C3 with the concrete oracle naming each place after its
query. -/
theorem c3_witness :
    ∃ r, create_auto_schedule oracle_by_query 3 "2025-01-01" empty_ctx "서울" = .ok r
      ∧ r.timeTables.map (fun a => (a.action, a.targetName, a.targetDate))
          = [("create", "timeTable", "2025-01-01"), ("create", "timeTable", "2025-01-02"),
             ("create", "timeTable", "2025-01-03")]
      ∧ r.placeBlocks.length = 11
      ∧ (r.placeBlocks.filter (fun b => b.timeTableId == -1)).length = 4
      ∧ (r.placeBlocks.filter (fun b => b.timeTableId == -2)).length = 4
      ∧ (r.placeBlocks.filter (fun b => b.timeTableId == -3)).length = 3
      ∧ (∀ b ∈ r.placeBlocks,
          (b.placeName = (place_named "서울 호텔").placeName ↔ b.placeCategoryId = 1))
      ∧ (r.placeBlocks.filter (fun b => b.placeCategoryId == 1)).map
          (fun b => b.timeTableId) = [-1, -2] :=
  c3_three_day_schedule (fun q _ _ => place_named q) (fun _ _ h => h)

end PlanmateAi
